import Mathlib

/-!
Verification development for the PDF-generation core of the SIGGRAPH-2025-Scout
repository (`src/utils/pdfGenerator.ts`).

The TypeScript source drives a `jsPDF` document object.  We embed that object
shallowly: a `Doc` value carries the page counters, the ambient style state
(font family/style, font size, text/draw/fill colors, line width) and the list
of drawing `Event`s emitted so far.  Drawing primitives append events stamped
with the page they land on and the style active at the time of the call.

`jsPDF` semantics used by the source and modelled here:
* a fresh document has one page, which is the current page;
* `addPage()` appends a new page at the *end* of the page list and makes it the
  current page (the page sequence is append-only, as the specification's data
  model also states; `jsPDF` has a separate `insertPage` API for insertion,
  which the source never uses);
* `setPage(n)` makes page `n` the current page without adding pages;
* `getNumberOfPages()` returns the total page count;
* `splitTextToSize(text, width)` wraps text by rendered width using the active
  font's metrics.  Font metrics are external to the source, so the wrap
  function is a parameter (`split`) of the embedding throughout.

Vertical coordinates use `ℚ` because the source adds the non-integral line
height 4.5.  JavaScript strings are modelled as Lean `String`s (the inputs the
claims quantify over are ordinary text; the UTF-16/char distinction is
immaterial for them).
-/

/-- Model of JavaScript `String.prototype.startsWith`. -/
def strStartsWith (s p : String) : Bool := p.data.isPrefixOf s.data

/-- Model of JavaScript `String.prototype.substring(0, n)`. -/
def substrPrefix (s : String) (n : Nat) : String := String.mk (s.data.take n)

/-- JavaScript truthiness of an optional string field: `undefined` and the
empty string are falsy. -/
def jsTruthy (o : Option String) : Bool :=
  match o with
  | none => false
  | some s => s ≠ ""

/-- JavaScript `a || b` for an optional string `a` and default `b`. -/
def jsOr (o : Option String) (dflt : String) : String :=
  match o with
  | none => dflt
  | some s => if s = "" then dflt else s

/-- The three-backtick fence marker scanned for by the renderer. -/
def tripleTick : String := "\x60\x60\x60"

/-- A line toggles code-block mode exactly when its trimmed content starts
with the triple-backtick marker (source line 22). -/
def isCodeToggle (line : String) : Bool := strStartsWith line.trim tripleTick

/-- Strip of a leading header marker, the source's
`trimmed.replace(/^#{1,6}\s*/, '')`: up to six leading `#` characters and the
whitespace following them are removed (no change when there is no leading
`#`, as the regex is anchored). -/
def stripHeaderMarker (s : String) : String :=
  let cs := s.data
  let k := (cs.takeWhile (fun c => c = '#')).length
  if k = 0 then s
  else String.mk ((cs.drop (min k 6)).dropWhile Char.isWhitespace)

/-- The source's ordinal-list test `/^\d+\.\s/.test(trimmed)`: one or more
digits, a dot, then a whitespace character. -/
def startsNumberedList (s : String) : Bool :=
  let cs := s.data
  let ds := cs.takeWhile Char.isDigit
  match cs.drop ds.length with
  | '.' :: c :: _ => !ds.isEmpty && c.isWhitespace
  | _ => false

/-- Parser for one occurrence of the link pattern `\[([^\]]+)\]\([^)]+\)`
starting right after an opening `[`: returns the link text and the rest of
the input after the closing parenthesis. -/
def parseLink (cs : List Char) : Option (List Char × List Char) :=
  let txt := cs.takeWhile (fun c => c ≠ ']')
  if txt.isEmpty then none
  else
    match cs.drop txt.length with
    | ']' :: '(' :: rest2 =>
      let url := rest2.takeWhile (fun c => c ≠ ')')
      if url.isEmpty then none
      else
        match rest2.drop url.length with
        | ')' :: rest3 => some (txt, rest3)
        | _ => none
    | _ => none

/-- Fuelled scanner for the global replacement
`replace(/\[([^\]]+)\]\([^)]+\)/g, '$1')` (convert `[text](url)` to `text`).
Each step consumes at least one character, so fuel equal to the input length
never runs out. -/
def linkReplaceAux : Nat → List Char → List Char
  | 0, cs => cs
  | _ + 1, [] => []
  | fuel + 1, '[' :: rest =>
    match parseLink rest with
    | some (txt, rest2) => txt ++ linkReplaceAux fuel rest2
    | none => '[' :: linkReplaceAux fuel rest
  | fuel + 1, c :: rest => c :: linkReplaceAux fuel rest

/-- JavaScript global replace of `[text](url)` by `text`. -/
def linkReplace (cs : List Char) : List Char := linkReplaceAux cs.length cs

/-- The source's inline-markdown strip (lines 75-78): remove `**` pairs,
remove backticks, convert `[text](url)` to `text`. -/
def stripInline (s : String) : String :=
  String.mk (linkReplace (((s.replace "**" "").replace "\x60" "").data))

/-- An RGB color; `jsPDF`'s one-argument gray setters duplicate the value. -/
structure Color where
  r : Nat
  g : Nat
  b : Nat
deriving DecidableEq, Repr

/-- Observable drawing/output actions of the document object.  Text events
record the page they are drawn on and the style active at the call. -/
inductive Event where
  | text (page : Nat) (x y : ℚ) (s : String) (font fstyle : String) (size : ℚ)
      (color : Color) (align : String)
  | textLines (page : Nat) (x y : ℚ) (ls : List String) (font fstyle : String)
      (size : ℚ) (color : Color)
  | textWithLink (page : Nat) (x y : ℚ) (s url : String) (font fstyle : String)
      (size : ℚ) (color : Color)
  | rect (page : Nat) (x y w h : ℚ) (fill : Color)
  | hline (page : Nat) (x1 y1 x2 y2 : ℚ)
  | link (page : Nat) (x y w h : ℚ) (target : Nat)
  | progress (current total : Nat)
  | save (name : String)
deriving DecidableEq, Repr

/-- The shallow `jsPDF` document state. -/
structure Doc where
  pages : Nat
  current : Nat
  font : String
  fstyle : String
  size : ℚ
  textColor : Color
  drawColor : Color
  fillColor : Color
  lineWidth : ℚ
  events : List Event
deriving DecidableEq, Repr

/-- `new jsPDF()`: one page, helvetica 16, black. -/
def initDoc : Doc :=
  ⟨1, 1, "helvetica", "normal", 16, ⟨0, 0, 0⟩, ⟨0, 0, 0⟩, ⟨0, 0, 0⟩, 1, []⟩

/-- `doc.addPage()`: append a page at the end and make it current. -/
def Doc.addPage (d : Doc) : Doc :=
  { d with pages := d.pages + 1, current := d.pages + 1 }

/-- `doc.setPage(n)`. -/
def Doc.setPage (d : Doc) (n : Nat) : Doc := { d with current := n }

/-- `doc.setFont(family, style)`. -/
def Doc.setFont (d : Doc) (f st : String) : Doc := { d with font := f, fstyle := st }

/-- `doc.setFontSize(s)`. -/
def Doc.setFontSize (d : Doc) (s : ℚ) : Doc := { d with size := s }

/-- `doc.setTextColor(r, g, b)`. -/
def Doc.setTextColor (d : Doc) (r g b : Nat) : Doc := { d with textColor := ⟨r, g, b⟩ }

/-- `doc.setTextColor(v)` (single-argument gray form). -/
def Doc.setTextColorGray (d : Doc) (v : Nat) : Doc := { d with textColor := ⟨v, v, v⟩ }

/-- `doc.setDrawColor(v)` (single-argument gray form). -/
def Doc.setDrawColorGray (d : Doc) (v : Nat) : Doc := { d with drawColor := ⟨v, v, v⟩ }

/-- `doc.setFillColor(r, g, b)`. -/
def Doc.setFillColor (d : Doc) (r g b : Nat) : Doc := { d with fillColor := ⟨r, g, b⟩ }

/-- `doc.setLineWidth(w)`. -/
def Doc.setLineWidth (d : Doc) (w : ℚ) : Doc := { d with lineWidth := w }

/-- `doc.text(s, x, y)`. -/
def Doc.text (d : Doc) (s : String) (x y : ℚ) : Doc :=
  { d with events :=
      d.events ++ [.text d.current x y s d.font d.fstyle d.size d.textColor "left"] }

/-- `doc.text(s, x, y, { align: 'right' })`. -/
def Doc.textRightAligned (d : Doc) (s : String) (x y : ℚ) : Doc :=
  { d with events :=
      d.events ++ [.text d.current x y s d.font d.fstyle d.size d.textColor "right"] }

/-- `doc.text(lines, x, y)` with an array argument. -/
def Doc.textLines (d : Doc) (ls : List String) (x y : ℚ) : Doc :=
  { d with events :=
      d.events ++ [.textLines d.current x y ls d.font d.fstyle d.size d.textColor] }

/-- `doc.textWithLink(s, x, y, { url })`. -/
def Doc.textWithLink (d : Doc) (s : String) (x y : ℚ) (url : String) : Doc :=
  { d with events :=
      d.events ++ [.textWithLink d.current x y s url d.font d.fstyle d.size d.textColor] }

/-- `doc.rect(x, y, w, h, 'F')`. -/
def Doc.rect (d : Doc) (x y w h : ℚ) : Doc :=
  { d with events := d.events ++ [.rect d.current x y w h d.fillColor] }

/-- `doc.line(x1, y1, x2, y2)`. -/
def Doc.hline (d : Doc) (x1 y1 x2 y2 : ℚ) : Doc :=
  { d with events := d.events ++ [.hline d.current x1 y1 x2 y2] }

/-- `doc.link(x, y, w, h, { pageNumber })`. -/
def Doc.link (d : Doc) (x y w h : ℚ) (target : Nat) : Doc :=
  { d with events := d.events ++ [.link d.current x y w h target] }

/-- Invocation of the caller-supplied progress callback `(current, total)`. -/
def Doc.progress (d : Doc) (cur tot : Nat) : Doc :=
  { d with events := d.events ++ [.progress cur tot] }

/-- `doc.save(name)`. -/
def Doc.save (d : Doc) (name : String) : Doc :=
  { d with events := d.events ++ [.save name] }

/-! ## Markdown Flow Renderer (`printMarkdownContent`, source lines 5-100) -/

/-- The inner loop drawing one wrapped code line (source lines 38-48): page
break estimate, light background band, text at `margin + 2`, advance by 4.5. -/
def drawCodeLine (m w ph : ℚ) (s : Doc × ℚ) (l : String) : Doc × ℚ :=
  let s2 := if s.2 > ph - 20 then (s.1.addPage, m) else s
  let d := s2.1.setFillColor 245 247 250
  let d := d.rect m (s2.2 - 3) w (9 / 2)
  let d := d.text l (m + 2) s2.2
  (d, s2.2 + 9 / 2)

/-- The inner loop drawing one wrapped body/header line (source lines 81-87):
page break estimate, text at `margin`, advance by the given line height. -/
def drawBodyLine (m ph lh : ℚ) (s : Doc × ℚ) (l : String) : Doc × ℚ :=
  let s2 := if s.2 > ph - 20 then (s.1.addPage, m) else s
  (s2.1.text l m s2.2, s2.2 + lh)

/-- One iteration of `lines.forEach` in `printMarkdownContent` (source lines
13-96).  State is (document, cursorY, inCodeBlock). -/
def mdLine (split : String → ℚ → List String) (m w ph : ℚ)
    (st : Doc × ℚ × Bool) (line : String) : Doc × ℚ × Bool :=
  let doc := if st.2.1 > ph - 20 then st.1.addPage else st.1
  let y := if st.2.1 > ph - 20 then m else st.2.1
  let inCode := st.2.2
  let trimmed := line.trim
  if strStartsWith trimmed tripleTick then
    (doc, y + 2, !inCode)
  else if inCode then
    let doc := ((doc.setFont "courier" "normal").setFontSize 9).setTextColor 40 40 40
    let codeLine := line.replace "\t" "  "
    let s2 := (split codeLine w).foldl (drawCodeLine m w ph) (doc, y)
    (s2.1, s2.2, inCode)
  else
    let doc := ((doc.setFont "helvetica" "normal").setFontSize 11).setTextColor 20 20 20
    if trimmed = "" then (doc, y + 4, inCode)
    else
      let isHeader := strStartsWith trimmed "##"
      let isBold := strStartsWith trimmed "**" || startsNumberedList trimmed
      let doc :=
        if isHeader then
          ((doc.setFont "helvetica" "bold").setFontSize 13).setTextColor 0 51 102
        else if isBold then doc.setFont "helvetica" "bold" else doc
      let displayLine := if isHeader then stripHeaderMarker trimmed else trimmed
      let y := if isHeader then y + 4 else y
      let displayLine := stripInline displayLine
      let lh : ℚ := if isHeader then 7 else 6
      let s2 := (split displayLine w).foldl (drawBodyLine m ph lh) (doc, y)
      let doc := if isHeader then (s2.1.setFontSize 11).setTextColor 20 20 20 else s2.1
      (doc, s2.2, inCode)

/-- The `forEach` loop of `printMarkdownContent` over a list of lines. -/
def mdFold (split : String → ℚ → List String) (m w ph : ℚ)
    (st : Doc × ℚ × Bool) (lines : List String) : Doc × ℚ × Bool :=
  lines.foldl (mdLine split m w ph) st

/-- `printMarkdownContent(doc, text, margin, startY, maxLineWidth, pageHeight)`
(source lines 5-100): set body style, scan the lines, return the final
cursor. -/
def printMarkdownContent (split : String → ℚ → List String) (doc : Doc)
    (text : String) (margin startY maxLineWidth pageHeight : ℚ) : Doc × ℚ :=
  let doc := (doc.setFontSize 11).setTextColor 20 20 20
  let s := mdFold split margin maxLineWidth pageHeight (doc, startY, false) (text.splitOn "\n")
  (s.1, s.2.1)

/-! ## Data model (`src/types.ts`) -/

/-- The `verification` sub-record of a paper. -/
structure Verification where
  isVerified : Bool
  sourceUrl : Option String
  foundTitle : Option String
deriving DecidableEq, Repr

/-- The `Paper` record of `src/types.ts`. -/
structure Paper where
  id : String
  title : String
  authors : String
  summary : String
  url : String
  tags : List String
  createdAt : Int
  fullAnalysis : Option String
  citation : Option String
  doi : Option String
  verification : Option Verification
deriving DecidableEq, Repr

/-- `!!paper.verification?.isVerified`. -/
def isVerifiedB (p : Paper) : Bool := (p.verification.map (·.isVerified)).getD false

/-- `!!paper.verification?.sourceUrl` (truthiness: an absent or empty URL is
falsy). -/
def hasSourceLinkB (p : Paper) : Bool := jsTruthy (p.verification.bind (·.sourceUrl))

/-- A table-of-contents entry recorded during the forward pass (source lines
304, 320-325). -/
structure TocEntry where
  title : String
  page : Nat
  verification : Bool
  doi : Option String
deriving DecidableEq, Repr

/-! ## Shared per-paper layout blocks

`generatePaperAnalysisPDF` and the per-paper loop of `generateResearchPDF`
contain the same block code verbatim (the source duplicates it); the blocks
below are that common code.  Every block uses the constants shared by both
functions: `margin = 20`, `pageHeight = 280`, `maxLineWidth = 170`,
`lineHeight = 7`. -/

/-- `checkPageBreak(heightNeeded)` (source lines 110-115 and 249-254). -/
def checkPageBreak (h : ℚ) (s : Doc × ℚ) : Doc × ℚ :=
  if s.2 + h ≥ 280 then (s.1.addPage, 20) else s

/-- The citation-box height formula (source lines 150 and 360):
`16 + citeLines.length * 4 + (hasSourceLink ? 10 : 0)`. -/
def citationBoxHeight (n : Nat) (hasLink : Bool) : ℚ :=
  16 + n * 4 + (if hasLink then 10 else 0)

/-- The citation placeholder used when no citation was generated. -/
def defaultCitation : String := "Citation not generated yet."

/-- Citation & verification box (source lines 141-183 and 351-393). -/
def citationBlock (split : String → ℚ → List String) (paper : Paper)
    (s : Doc × ℚ) : Doc × ℚ :=
  if jsTruthy paper.citation || isVerifiedB paper then
    let d := (s.1.setFont "helvetica" "normal").setFontSize 9
    let citeText := jsOr paper.citation defaultCitation
    let citeLines := split citeText 160
    let hasSourceLink := hasSourceLinkB paper
    let boxHeight := citationBoxHeight citeLines.length hasSourceLink
    let s2 := checkPageBreak (boxHeight + 5) (d, s.2)
    let d := (s2.1.setDrawColorGray 220).setFillColor 245 245 245
    let d := d.rect 20 s2.2 170 boxHeight
    let d := d.setTextColor 50 50 50
    let d := d.text "CITATION & VERIFICATION" 25 (s2.2 + 6)
    let d :=
      if isVerifiedB paper then
        ((d.setTextColor 0 120 0).setFont "helvetica" "bold").text
          "✓ Verified Source" 140 (s2.2 + 6)
      else
        ((d.setTextColor 150 0 0).setFont "helvetica" "bold").text
          "⚠ Unverified" 140 (s2.2 + 6)
    let d := (d.setFont "helvetica" "normal").setTextColorGray 40
    let d := d.textLines citeLines 25 (s2.2 + 14)
    let d :=
      if hasSourceLinkB paper then
        let linkY := s2.2 + 14 + citeLines.length * 4 + 2
        ((d.setTextColor 0 80 200).setFont "helvetica" "bold").textWithLink
          "→ Access Verified Source File" 25 linkY
          ((paper.verification.bind (·.sourceUrl)).getD "")
      else d
    (d, s2.2 + boxHeight + 10)
  else s

/-- Tags line (source lines 186-190 and 396-400). -/
def tagsBlock (paper : Paper) (s : Doc × ℚ) : Doc × ℚ :=
  let d := ((s.1.setFontSize 9).setFont "helvetica" "normal").setTextColor 100 100 100
  let tagsStr := String.intercalate ", " paper.tags
  let d := d.text ("Tags: " ++ tagsStr) 20 s.2
  (d, s.2 + 12)

/-- Abstract/summary section (source lines 193-206 and 403-416). -/
def summaryBlock (split : String → ℚ → List String) (paper : Paper)
    (s : Doc × ℚ) : Doc × ℚ :=
  let d := ((s.1.setFontSize 12).setFont "helvetica" "bold").setTextColor 0 0 0
  let d := d.text "Abstract / Summary" 20 s.2
  let y := s.2 + 7
  let d := (d.setFont "helvetica" "normal").setFontSize 11
  let s2 := (split paper.summary 170).foldl
    (fun (s : Doc × ℚ) line =>
      let s2 := checkPageBreak 7 s
      (s2.1.text line 20 s2.2, s2.2 + 7)) (d, y)
  (s2.1, s2.2 + 10)

/-- Deep-dive section rendered through the Markdown Flow Renderer (source
lines 209-225 and 419-435). -/
def deepDiveBlock (split : String → ℚ → List String) (paper : Paper)
    (s : Doc × ℚ) : Doc × ℚ :=
  if jsTruthy paper.fullAnalysis then
    let s2 := checkPageBreak 20 s
    let d := s2.1.setDrawColorGray 200
    let d := d.hline 20 s2.2 190 s2.2
    let y := s2.2 + 10
    let d := ((d.setFontSize 14).setFont "helvetica" "bold").setTextColor 0 51 102
    let d := d.text "Deep Dive Analysis" 20 y
    let y := y + 12
    let s3 := printMarkdownContent split d (paper.fullAnalysis.getD "") 20 y 170 280
    (s3.1, s3.2 + 10)
  else s

/-- Original-source link (source lines 228-232 and 438-442). -/
def linkBlock (paper : Paper) (s : Doc × ℚ) : Doc × ℚ :=
  let s2 := checkPageBreak 20 s
  let d := (s2.1.setFontSize 10).setTextColor 0 0 255
  let d := d.textWithLink "Original Source Link" 20 s2.2 paper.url
  (d, s2.2)

/-- Single-paper export file name:
`title.substring(0, 30).replace(/[^a-z0-9]/gi, '_') + '_Analysis.pdf'`. -/
def sanitizeFileName (title : String) : String :=
  String.mk ((substrPrefix title 30).data.map
    (fun c => if c.isAlphanum then c else '_')) ++ "_Analysis.pdf"

/-- Header/title/authors prologue of the single-paper export (source lines
117-139). -/
def paperHeaderSingle (split : String → ℚ → List String) (paper : Paper) : Doc × ℚ :=
  let d := initDoc
  let y : ℚ := 20
  let d := (d.setFontSize 10).setTextColorGray 150
  let d := d.text "SIGGRAPH Scout Analysis" 20 y
  let y := y + 10
  let d := (d.setFontSize 18).setTextColor 0 51 102
  let titleLines := split paper.title 170
  let d := d.textLines titleLines 20 y
  let y := y + titleLines.length * 7 + 5
  let d := ((d.setFontSize 12).setFont "helvetica" "italic").setTextColor 80 80 80
  let d := d.text paper.authors 20 y
  (d, y + 12)

/-- `generatePaperAnalysisPDF(paper)` (source lines 102-235). -/
def generatePaperAnalysisPDF (split : String → ℚ → List String) (paper : Paper) : Doc :=
  let s := paperHeaderSingle split paper
  let s := citationBlock split paper s
  let s := tagsBlock paper s
  let s := summaryBlock split paper s
  let s := deepDiveBlock split paper s
  let s := linkBlock paper s
  s.1.save (sanitizeFileName paper.title)

/-! ## Multi-paper journal export (`generateResearchPDF`, source lines 237-503) -/

/-- Result of laying out one paper's section in the journal loop.  `tagPage`
and `titlePage` are ghost observations: the current page of the document at
the exact drawing call of the `Paper #n` tag and of the title block; they do
not influence the layout. -/
structure SectionOut where
  doc : Doc
  cursorY : ℚ
  entry : TocEntry
  tagPage : Nat
  titlePage : Nat
deriving Repr

/-- Per-paper section of the journal loop (source lines 316-443): append a
page, capture its index as the paper's start page, record the TOC entry, then
draw the same blocks as the single-paper export. -/
def processPaper (split : String → ℚ → List String) (i : Nat) (paper : Paper)
    (doc : Doc) : SectionOut :=
  let d := doc.addPage
  let startPage := d.pages
  let y : ℚ := 20
  let entry : TocEntry := ⟨paper.title, startPage, isVerifiedB paper, paper.doi⟩
  let d := (d.setFontSize 10).setTextColorGray 150
  let tagPage := d.current
  let istr := toString (i + 1)
  let d := d.text ("Paper #" ++ istr) 20 y
  let y := y + 10
  let d := (d.setFontSize 18).setTextColor 0 51 102
  let titleLines := split paper.title 170
  let titlePage := d.current
  let d := d.textLines titleLines 20 y
  let y := y + titleLines.length * 7 + 5
  let d := ((d.setFontSize 12).setFont "helvetica" "italic").setTextColor 80 80 80
  let d := d.text paper.authors 20 y
  let s := (d, y + 12)
  let s := citationBlock split paper s
  let s := tagsBlock paper s
  let s := summaryBlock split paper s
  let s := deepDiveBlock split paper s
  let s := linkBlock paper s
  ⟨s.1, s.2, entry, tagPage, titlePage⟩

/-- Loop state of the journal export's forward pass.  `toc` is the
`tocEntries` array; `headerPages` is the ghost list of (tag page, title page)
observations. -/
structure JState where
  doc : Doc
  cursorY : ℚ
  toc : List TocEntry
  headerPages : List (Nat × Nat)
deriving Repr

/-- One iteration of the paper loop (source lines 306-443): optional progress
callback (`onProgress(i + 1, papers.length)` at the top of the iteration,
before the section is laid out), then the paper's section. -/
def journalStep (split : String → ℚ → List String) (onProgress : Bool) (n : Nat)
    (st : JState) (ip : Nat × Paper) : JState :=
  let d := if onProgress then st.doc.progress (ip.1 + 1) n else st.doc
  let out := processPaper split ip.1 ip.2 d
  ⟨out.doc, out.cursorY, st.toc ++ [out.entry], st.headerPages ++ [(out.tagPage, out.titlePage)]⟩

/-- Title page of the journal (source lines 256-295); `today` stands for
`new Date().toLocaleDateString()`. -/
def titlePageBlock (today : String) (nPapers : Nat) (d : Doc) : Doc × ℚ :=
  let y : ℚ := 20
  let d := ((d.setFontSize 26).setTextColor 20 20 40).setFont "helvetica" "bold"
  let d := d.text "SIGGRAPH 2025" 20 y
  let y := y + 12
  let d := ((d.setFontSize 20).setTextColor 60 60 70).setFont "helvetica" "normal"
  let d := d.text "Research Journal & Digest" 20 y
  let y := y + 30
  let d := (d.setFontSize 12).setTextColor 80 80 80
  let d := d.text "Edited and Compiled by:" 20 y
  let y := y + 6
  let d := d.setFont "helvetica" "bold"
  let d := d.text "Kara Rawson" 20 y
  let d := d.setFont "helvetica" "normal"
  let d := d.text "rawsonkara@gmail.com" 60 y
  let y := y + 15
  let d := d.text "Published by:" 20 y
  let y := y + 6
  let d := d.setFont "helvetica" "bold"
  let d := d.text "Cat Game Research 2026" 20 y
  let y := y + 20
  let d := d.setFont "helvetica" "normal"
  let d := d.text ("Generated on: " ++ today) 20 y
  let nstr := toString nPapers
  let d := d.text ("Total Papers: " ++ nstr) 20 (y + 7)
  let y := y + 20
  let d := (d.setLineWidth (1 / 2)).setDrawColorGray 200
  let d := d.hline 20 y 190 y
  (d, y)

/-- Table-of-contents entry text (source line 471):
`${i + 1}. ${title.substring(0, 70)}${title.length > 70 ? '...' : ''}`. -/
def tocTitleText (i : Nat) (title : String) : String :=
  let istr := toString (i + 1)
  istr ++ ". " ++ substrPrefix title 70 ++ (if title.length > 70 then "..." else "")

/-- Loop state of the TOC backfill pass.  `drawnPages` is the ghost list of
the current page at each entry's main drawing call. -/
structure BState where
  doc : Doc
  cursorY : ℚ
  drawnPages : List Nat
deriving Repr

/-- One iteration of the TOC backfill loop (source lines 459-496). -/
def tocEntryStep (st : BState) (ie : Nat × TocEntry) : BState :=
  let d := if st.cursorY + 15 ≥ 280 then st.doc.addPage else st.doc
  let y := if st.cursorY + 15 ≥ 280 then (20 : ℚ) else st.cursorY
  let entry := ie.2
  let d := d.setTextColor 0 51 102
  let title := tocTitleText ie.1 entry.title
  let statusMark := if entry.verification then " (Verified)" else ""
  let lineText := title ++ statusMark
  let drawnPage := d.current
  let d := d.text lineText 20 y
  let d := d.link 20 (y - 5) 170 7 entry.page
  let d := d.setTextColorGray 100
  let pstr := toString entry.page
  let d := d.textRightAligned ("p. " ++ pstr) 180 y
  let s2 :=
    if jsTruthy entry.doi then
      let doi := entry.doi.getD ""
      let y := y + 5
      let d := (d.setTextColor 0 80 200).setFontSize 9
      let doiUrl := if strStartsWith doi "http" then doi else "https://doi.org/" ++ doi
      let d := d.textWithLink ("[DOI: " ++ doi ++ "]") 30 y doiUrl
      let d := (d.setTextColor 0 51 102).setFontSize 11
      (d, y + 3)
    else (d, y)
  ⟨s2.1, s2.2 + 8, st.drawnPages ++ [drawnPage]⟩

/-- Result of the journal export.  Besides the final document it exposes the
recorded TOC entries, the ghost header-page observations, the reserved TOC
page index, the page count at the end of the forward pass, and the ghost page
observations of the backfill pass. -/
structure JournalOut where
  doc : Doc
  toc : List TocEntry
  headerPages : List (Nat × Nat)
  tocPageNumber : Nat
  pagesBeforeToc : Nat
  drawnPages : List Nat
deriving Repr

/-- Document state after the title page and the reserved TOC page (source
lines 256-300); its page count is the captured `tocPageNumber`. -/
def journalInit (today : String) (n : Nat) : Doc :=
  (titlePageBlock today n initDoc).1.addPage

/-- The forward pass of the journal export: the paper loop run from the
reserved-TOC-page state (source lines 303-443). -/
def journalForward (split : String → ℚ → List String) (onProgress : Bool)
    (today : String) (papers : List Paper) : JState :=
  papers.enum.foldl (journalStep split onProgress papers.length)
    ⟨journalInit today papers.length, 20, [], []⟩

/-- The backfill pass (source lines 446-496): jump back to the reserved TOC
page, write the heading, then the recorded entries. -/
def journalBackfill (st : JState) (tocPageNumber : Nat) : BState :=
  let d := st.doc.setPage tocPageNumber
  let y : ℚ := 20
  let d := ((d.setFontSize 16).setTextColor 0 0 0).setFont "helvetica" "bold"
  let d := d.text "Table of Contents" 20 y
  let y := y + 15
  let d := (d.setFontSize 11).setFont "helvetica" "normal"
  st.toc.enum.foldl tocEntryStep ⟨d, y, []⟩

/-- `generateResearchPDF(papers, onProgress)` (source lines 237-503): title
page, reserved TOC page, per-paper sections, then the TOC backfill pass and
save. -/
def generateResearchPDF (split : String → ℚ → List String) (onProgress : Bool)
    (today : String) (papers : List Paper) : JournalOut :=
  let st := journalForward split onProgress today papers
  let tocPageNumber := (journalInit today papers.length).pages
  let b := journalBackfill st tocPageNumber
  let d := b.doc.save "SIGGRAPH_2025_Comprehensive_Journal.pdf"
  ⟨d, st.toc, st.headerPages, tocPageNumber, st.doc.pages, b.drawnPages⟩

/-- A concrete stand-in for `jsPDF.splitTextToSize` used by witnesses and
counterexamples: no wrapping, every input becomes one physical line (the real
wrap depends on font metrics external to the source, which is why `split` is
a parameter of the embedding). -/
def cSplit : String → ℚ → List String := fun s _ => [s]

/-! ## Observation helpers for stating properties -/

/-- Is an event a progress-callback invocation? -/
def Event.isProgress : Event → Bool
  | .progress _ _ => true
  | _ => false

/-- Extract a progress-callback invocation's arguments. -/
def progressOf : Event → Option (Nat × Nat)
  | .progress c t => some (c, t)
  | _ => none

/-- Extract a filled rectangle's geometry. -/
def rectOf : Event → Option (ℚ × ℚ × ℚ × ℚ)
  | .rect _ x y w h _ => some (x, y, w, h)
  | _ => none

/-- Is an event a text drawn in the courier (code) font? -/
def Event.isCourierText : Event → Bool
  | .text _ _ _ _ f _ _ _ _ => f == "courier"
  | _ => false

/-- Code-style output: a text event in courier at size 9, or a background
band rectangle. -/
def codeStyled : Event → Prop
  | .text _ _ _ _ f _ sz _ _ => f = "courier" ∧ sz = 9
  | .rect _ _ _ _ _ _ => True
  | _ => False

/-- `Emits P d d'`: the step from document `d` to `d'` only appends events,
all satisfying `P`, and never removes pages. -/
def Emits (P : Event → Prop) (d d' : Doc) : Prop :=
  d.pages ≤ d'.pages ∧ ∃ t, d'.events = d.events ++ t ∧ ∀ e ∈ t, P e

theorem Emits.refl (P : Event → Prop) (d : Doc) : Emits P d d :=
  ⟨le_rfl, [], by simp⟩

theorem Emits.trans {P : Event → Prop} {a b c : Doc}
    (h1 : Emits P a b) (h2 : Emits P b c) : Emits P a c := by
  obtain ⟨hp1, t1, he1, ha1⟩ := h1
  obtain ⟨hp2, t2, he2, ha2⟩ := h2
  refine ⟨le_trans hp1 hp2, t1 ++ t2, ?_, ?_⟩
  · rw [he2, he1, List.append_assoc]
  · intro e he
    rcases List.mem_append.1 he with h | h
    · exact ha1 e h
    · exact ha2 e h

theorem Emits.mono {P Q : Event → Prop} {a b : Doc}
    (h : Emits P a b) (hpq : ∀ e, P e → Q e) : Emits Q a b := by
  obtain ⟨hp, t, he, ha⟩ := h
  exact ⟨hp, t, he, fun e hm => hpq e (ha e hm)⟩

theorem emits_foldl {σ α : Type*} (proj : σ → Doc) (f : σ → α → σ) (P : Event → Prop)
    (hf : ∀ s a, Emits P (proj s) (proj (f s a))) :
    ∀ (l : List α) (s : σ), Emits P (proj s) (proj (l.foldl f s)) := by
  intro l
  induction l with
  | nil => intro s; exact Emits.refl P (proj s)
  | cons a l ih => intro s; exact (hf s a).trans (ih (f s a))


/-- Non-progress events: everything the layout blocks draw. -/
def noProg (e : Event) : Prop := e.isProgress = false

theorem noProg_progressOf {e : Event} (h : noProg e) : progressOf e = none := by
  cases e
  case progress c t => simp [noProg, Event.isProgress] at h
  all_goals rfl

theorem emits_addPage (P : Event → Prop) (d : Doc) : Emits P d d.addPage :=
  ⟨Nat.le_succ _, [], by simp [Doc.addPage]⟩

theorem emits_setPage (P : Event → Prop) (d : Doc) (n : Nat) : Emits P d (d.setPage n) :=
  ⟨le_rfl, [], by simp [Doc.setPage]⟩

theorem emits_setFont (P : Event → Prop) (d : Doc) (f st : String) :
    Emits P d (d.setFont f st) :=
  ⟨le_rfl, [], by simp [Doc.setFont]⟩

theorem emits_setFontSize (P : Event → Prop) (d : Doc) (s : ℚ) :
    Emits P d (d.setFontSize s) :=
  ⟨le_rfl, [], by simp [Doc.setFontSize]⟩

theorem emits_setTextColor (P : Event → Prop) (d : Doc) (r g b : Nat) :
    Emits P d (d.setTextColor r g b) :=
  ⟨le_rfl, [], by simp [Doc.setTextColor]⟩

theorem emits_setTextColorGray (P : Event → Prop) (d : Doc) (v : Nat) :
    Emits P d (d.setTextColorGray v) :=
  ⟨le_rfl, [], by simp [Doc.setTextColorGray]⟩

theorem emits_setDrawColorGray (P : Event → Prop) (d : Doc) (v : Nat) :
    Emits P d (d.setDrawColorGray v) :=
  ⟨le_rfl, [], by simp [Doc.setDrawColorGray]⟩

theorem emits_setFillColor (P : Event → Prop) (d : Doc) (r g b : Nat) :
    Emits P d (d.setFillColor r g b) :=
  ⟨le_rfl, [], by simp [Doc.setFillColor]⟩

theorem emits_setLineWidth (P : Event → Prop) (d : Doc) (w : ℚ) :
    Emits P d (d.setLineWidth w) :=
  ⟨le_rfl, [], by simp [Doc.setLineWidth]⟩

theorem emits_text (P : Event → Prop) (d : Doc) (s : String) (x y : ℚ)
    (h : P (.text d.current x y s d.font d.fstyle d.size d.textColor "left")) :
    Emits P d (d.text s x y) :=
  ⟨le_rfl, [.text d.current x y s d.font d.fstyle d.size d.textColor "left"],
    rfl, by simpa using h⟩

theorem emits_textRightAligned (P : Event → Prop) (d : Doc) (s : String) (x y : ℚ)
    (h : P (.text d.current x y s d.font d.fstyle d.size d.textColor "right")) :
    Emits P d (d.textRightAligned s x y) :=
  ⟨le_rfl, [.text d.current x y s d.font d.fstyle d.size d.textColor "right"],
    rfl, by simpa using h⟩

theorem emits_textLines (P : Event → Prop) (d : Doc) (ls : List String) (x y : ℚ)
    (h : P (.textLines d.current x y ls d.font d.fstyle d.size d.textColor)) :
    Emits P d (d.textLines ls x y) :=
  ⟨le_rfl, [.textLines d.current x y ls d.font d.fstyle d.size d.textColor],
    rfl, by simpa using h⟩

theorem emits_textWithLink (P : Event → Prop) (d : Doc) (s : String) (x y : ℚ)
    (url : String)
    (h : P (.textWithLink d.current x y s url d.font d.fstyle d.size d.textColor)) :
    Emits P d (d.textWithLink s x y url) :=
  ⟨le_rfl, [.textWithLink d.current x y s url d.font d.fstyle d.size d.textColor],
    rfl, by simpa using h⟩

theorem emits_rect (P : Event → Prop) (d : Doc) (x y w h : ℚ)
    (hp : P (.rect d.current x y w h d.fillColor)) :
    Emits P d (d.rect x y w h) :=
  ⟨le_rfl, [.rect d.current x y w h d.fillColor], rfl, by simpa using hp⟩

theorem emits_hline (P : Event → Prop) (d : Doc) (x1 y1 x2 y2 : ℚ)
    (h : P (.hline d.current x1 y1 x2 y2)) :
    Emits P d (d.hline x1 y1 x2 y2) :=
  ⟨le_rfl, [.hline d.current x1 y1 x2 y2], rfl, by simpa using h⟩

theorem emits_link (P : Event → Prop) (d : Doc) (x y w h : ℚ) (t : Nat)
    (hp : P (.link d.current x y w h t)) :
    Emits P d (d.link x y w h t) :=
  ⟨le_rfl, [.link d.current x y w h t], rfl, by simpa using hp⟩

theorem emits_save (P : Event → Prop) (d : Doc) (n : String)
    (h : P (.save n)) :
    Emits P d (d.save n) :=
  ⟨le_rfl, [.save n], rfl, by simpa using h⟩

theorem emits_noProg_tagsBlock (paper : Paper) (s : Doc × ℚ) :
    Emits noProg s.1 (tagsBlock paper s).1 := by
  unfold tagsBlock
  dsimp only
  refine Emits.trans ?_ (emits_text _ _ _ _ _ rfl)
  refine Emits.trans ?_ (emits_setTextColor _ _ _ _ _)
  refine Emits.trans ?_ (emits_setFont _ _ _ _)
  exact emits_setFontSize _ _ _

theorem emits_checkPageBreak (P : Event → Prop) (h : ℚ) (s : Doc × ℚ) :
    Emits P s.1 (checkPageBreak h s).1 := by
  unfold checkPageBreak
  split
  · exact emits_addPage _ _
  · exact Emits.refl _ _

theorem emits_noProg_drawCodeLine (m w ph : ℚ) (s : Doc × ℚ) (l : String) :
    Emits noProg s.1 (drawCodeLine m w ph s l).1 := by
  unfold drawCodeLine
  dsimp only
  refine Emits.trans ?_ (emits_text _ _ _ _ _ rfl)
  refine Emits.trans ?_ (emits_rect _ _ _ _ _ _ rfl)
  refine Emits.trans ?_ (emits_setFillColor _ _ _ _ _)
  split
  · exact emits_addPage _ _
  · exact Emits.refl _ _

theorem emits_noProg_drawBodyLine (m ph lh : ℚ) (s : Doc × ℚ) (l : String) :
    Emits noProg s.1 (drawBodyLine m ph lh s l).1 := by
  unfold drawBodyLine
  dsimp only
  refine Emits.trans ?_ (emits_text _ _ _ _ _ rfl)
  split
  · exact emits_addPage _ _
  · exact Emits.refl _ _

theorem emits_noProg_mdLine (split : String → ℚ → List String) (m w ph : ℚ)
    (st : Doc × ℚ × Bool) (line : String) :
    Emits noProg st.1 (mdLine split m w ph st line).1 := by
  have hpre : Emits noProg st.1 (if st.2.1 > ph - 20 then st.1.addPage else st.1) := by
    split
    · exact emits_addPage _ _
    · exact Emits.refl _ _
  unfold mdLine
  dsimp only
  split
  · exact hpre
  · split
    · refine Emits.trans ?_
        (emits_foldl Prod.fst _ _ (fun s a => emits_noProg_drawCodeLine m w ph s a) _ _)
      refine Emits.trans ?_ (emits_setTextColor _ _ _ _ _)
      refine Emits.trans ?_ (emits_setFontSize _ _ _)
      refine Emits.trans ?_ (emits_setFont _ _ _ _)
      exact hpre
    · have hbase : Emits noProg st.1
          ((((if st.2.1 > ph - 20 then st.1.addPage else st.1).setFont
            "helvetica" "normal").setFontSize 11).setTextColor 20 20 20) := by
        refine Emits.trans ?_ (emits_setTextColor _ _ _ _ _)
        refine Emits.trans ?_ (emits_setFontSize _ _ _)
        refine Emits.trans ?_ (emits_setFont _ _ _ _)
        exact hpre
      split
      · exact hbase
      · have hsty : ∀ d0 : Doc, Emits noProg d0
            (if strStartsWith line.trim "##" = true then
              ((d0.setFont "helvetica" "bold").setFontSize 13).setTextColor 0 51 102
            else if (strStartsWith line.trim "**" || startsNumberedList line.trim) = true
              then d0.setFont "helvetica" "bold" else d0) := by
          intro d0
          split
          · refine Emits.trans ?_ (emits_setTextColor _ _ _ _ _)
            refine Emits.trans ?_ (emits_setFontSize _ _ _)
            exact emits_setFont _ _ _ _
          · split
            · exact emits_setFont _ _ _ _
            · exact Emits.refl _ _
        have hrev : ∀ s2 : Doc × ℚ, Emits noProg s2.1
            (if strStartsWith line.trim "##" = true then
              (s2.1.setFontSize 11).setTextColor 20 20 20 else s2.1) := by
          intro s2
          split
          · exact Emits.trans (emits_setFontSize _ _ _) (emits_setTextColor _ _ _ _ _)
          · exact Emits.refl _ _
        refine Emits.trans ?_ (hrev _)
        refine Emits.trans ?_
          (emits_foldl Prod.fst _ _ (fun s a => emits_noProg_drawBodyLine m ph _ s a) _ _)
        exact Emits.trans hbase (hsty _)

theorem emits_noProg_mdFold (split : String → ℚ → List String) (m w ph : ℚ)
    (st : Doc × ℚ × Bool) (lines : List String) :
    Emits noProg st.1 (mdFold split m w ph st lines).1 :=
  emits_foldl Prod.fst _ _ (fun s a => emits_noProg_mdLine split m w ph s a) lines st

theorem emits_noProg_printMarkdownContent (split : String → ℚ → List String)
    (doc : Doc) (text : String) (margin startY maxLineWidth pageHeight : ℚ) :
    Emits noProg doc
      (printMarkdownContent split doc text margin startY maxLineWidth pageHeight).1 := by
  unfold printMarkdownContent
  dsimp only
  refine Emits.trans ?_ (emits_noProg_mdFold _ _ _ _ _ _)
  exact Emits.trans (emits_setFontSize _ _ _) (emits_setTextColor _ _ _ _ _)

theorem emits_noProg_citationBlock (split : String → ℚ → List String)
    (paper : Paper) (s : Doc × ℚ) :
    Emits noProg s.1 (citationBlock split paper s).1 := by
  unfold citationBlock
  dsimp only
  split
  · have hver : ∀ (d0 : Doc) (y0 : ℚ), Emits noProg d0
        (if isVerifiedB paper = true then
          ((d0.setTextColor 0 120 0).setFont "helvetica" "bold").text
            "✓ Verified Source" 140 y0
        else
          ((d0.setTextColor 150 0 0).setFont "helvetica" "bold").text
            "⚠ Unverified" 140 y0) := by
      intro d0 y0
      split
      · exact Emits.trans (Emits.trans (emits_setTextColor _ _ _ _ _)
          (emits_setFont _ _ _ _)) (emits_text _ _ _ _ _ rfl)
      · exact Emits.trans (Emits.trans (emits_setTextColor _ _ _ _ _)
          (emits_setFont _ _ _ _)) (emits_text _ _ _ _ _ rfl)
    have hsrc : ∀ (d0 : Doc) (y0 : ℚ), Emits noProg d0
        (if hasSourceLinkB paper = true then
          ((d0.setTextColor 0 80 200).setFont "helvetica" "bold").textWithLink
            "→ Access Verified Source File" 25 y0
            ((paper.verification.bind (·.sourceUrl)).getD "")
        else d0) := by
      intro d0 y0
      split
      · exact Emits.trans (Emits.trans (emits_setTextColor _ _ _ _ _)
          (emits_setFont _ _ _ _)) (emits_textWithLink _ _ _ _ _ _ rfl)
      · exact Emits.refl _ _
    refine Emits.trans ?_ (hsrc _ _)
    refine Emits.trans ?_ (emits_textLines _ _ _ _ _ rfl)
    refine Emits.trans ?_ (emits_setTextColorGray _ _ _)
    refine Emits.trans ?_ (emits_setFont _ _ _ _)
    refine Emits.trans ?_ (hver _ _)
    refine Emits.trans ?_ (emits_text _ _ _ _ _ rfl)
    refine Emits.trans ?_ (emits_setTextColor _ _ _ _ _)
    refine Emits.trans ?_ (emits_rect _ _ _ _ _ _ rfl)
    refine Emits.trans ?_ (emits_setFillColor _ _ _ _ _)
    refine Emits.trans ?_ (emits_setDrawColorGray _ _ _)
    refine Emits.trans ?_ (emits_checkPageBreak _ _ _)
    exact Emits.trans (emits_setFont _ _ _ _) (emits_setFontSize _ _ _)
  · exact Emits.refl _ _

theorem emits_noProg_summaryBlock (split : String → ℚ → List String)
    (paper : Paper) (s : Doc × ℚ) :
    Emits noProg s.1 (summaryBlock split paper s).1 := by
  unfold summaryBlock
  dsimp only
  refine Emits.trans ?_ (emits_foldl Prod.fst _ _ (fun s a => ?_) _ _)
  · refine Emits.trans ?_ (emits_setFontSize _ _ _)
    refine Emits.trans ?_ (emits_setFont _ _ _ _)
    refine Emits.trans ?_ (emits_text _ _ _ _ _ rfl)
    refine Emits.trans ?_ (emits_setTextColor _ _ _ _ _)
    exact Emits.trans (emits_setFontSize _ _ _) (emits_setFont _ _ _ _)
  · dsimp only
    exact Emits.trans (emits_checkPageBreak _ _ _) (emits_text _ _ _ _ _ rfl)

theorem emits_noProg_deepDiveBlock (split : String → ℚ → List String)
    (paper : Paper) (s : Doc × ℚ) :
    Emits noProg s.1 (deepDiveBlock split paper s).1 := by
  unfold deepDiveBlock
  dsimp only
  split
  · refine Emits.trans ?_ (emits_noProg_printMarkdownContent _ _ _ _ _ _ _)
    refine Emits.trans ?_ (emits_text _ _ _ _ _ rfl)
    refine Emits.trans ?_ (emits_setTextColor _ _ _ _ _)
    refine Emits.trans ?_ (emits_setFont _ _ _ _)
    refine Emits.trans ?_ (emits_setFontSize _ _ _)
    refine Emits.trans ?_ (emits_hline _ _ _ _ _ _ rfl)
    refine Emits.trans ?_ (emits_setDrawColorGray _ _ _)
    exact emits_checkPageBreak _ _ _
  · exact Emits.refl _ _

theorem emits_noProg_linkBlock (paper : Paper) (s : Doc × ℚ) :
    Emits noProg s.1 (linkBlock paper s).1 := by
  unfold linkBlock
  dsimp only
  refine Emits.trans ?_ (emits_textWithLink _ _ _ _ _ _ rfl)
  refine Emits.trans ?_ (emits_setTextColor _ _ _ _ _)
  refine Emits.trans ?_ (emits_setFontSize _ _ _)
  exact emits_checkPageBreak _ _ _

theorem processPaper_fields (split : String → ℚ → List String) (i : Nat)
    (paper : Paper) (d : Doc) :
    (processPaper split i paper d).entry =
        ⟨paper.title, d.pages + 1, isVerifiedB paper, paper.doi⟩ ∧
      (processPaper split i paper d).tagPage = d.pages + 1 ∧
      (processPaper split i paper d).titlePage = d.pages + 1 :=
  ⟨rfl, rfl, rfl⟩

theorem processPaper_events (split : String → ℚ → List String) (i : Nat)
    (paper : Paper) (d : Doc) :
    d.pages + 1 ≤ (processPaper split i paper d).doc.pages ∧
    ∃ t, (processPaper split i paper d).doc.events =
        d.events ++ Event.text (d.pages + 1) 20 20 ("Paper #" ++ toString (i + 1))
          d.font d.fstyle 10 ⟨150, 150, 150⟩ "left" :: t ∧
      ∀ e ∈ t, noProg e := by
  have hem : Emits noProg
      (((d.addPage.setFontSize 10).setTextColorGray 150).text
        ("Paper #" ++ toString (i + 1)) 20 20)
      (processPaper split i paper d).doc := by
    unfold processPaper
    dsimp only
    refine Emits.trans ?_ (emits_noProg_linkBlock _ _)
    refine Emits.trans ?_ (emits_noProg_deepDiveBlock _ _ _)
    refine Emits.trans ?_ (emits_noProg_summaryBlock _ _ _)
    refine Emits.trans ?_ (emits_noProg_tagsBlock _ _)
    refine Emits.trans ?_ (emits_noProg_citationBlock _ _ _)
    dsimp only
    refine Emits.trans ?_ (emits_text _ _ _ _ _ rfl)
    refine Emits.trans ?_ (emits_setTextColor _ _ _ _ _)
    refine Emits.trans ?_ (emits_setFont _ _ _ _)
    refine Emits.trans ?_ (emits_setFontSize _ _ _)
    refine Emits.trans ?_ (emits_textLines _ _ _ _ _ rfl)
    refine Emits.trans ?_ (emits_setTextColor _ _ _ _ _)
    exact Emits.trans (emits_setFontSize _ _ _) (Emits.refl _ _)
  obtain ⟨hp, t, ht, hall⟩ := hem
  constructor
  · exact hp
  · refine ⟨t, ?_, hall⟩
    rw [ht]
    show (d.events ++ [Event.text (d.pages + 1) 20 20 ("Paper #" ++ toString (i + 1))
      d.font d.fstyle 10 ⟨150, 150, 150⟩ "left"]) ++ t = _
    simp

theorem journalStep_toc (split : String → ℚ → List String) (onP : Bool) (n : Nat)
    (st : JState) (ip : Nat × Paper) :
    (journalStep split onP n st ip).toc =
        st.toc ++ [⟨ip.2.title, st.doc.pages + 1, isVerifiedB ip.2, ip.2.doi⟩] ∧
      (journalStep split onP n st ip).headerPages =
        st.headerPages ++ [(st.doc.pages + 1, st.doc.pages + 1)] ∧
      st.doc.pages + 1 ≤ (journalStep split onP n st ip).doc.pages := by
  cases onP
  · exact ⟨rfl, rfl, (processPaper_events split ip.1 ip.2 st.doc).1⟩
  · exact ⟨rfl, rfl, (processPaper_events split ip.1 ip.2 (st.doc.progress (ip.1 + 1) n)).1⟩

theorem journalStep_events (split : String → ℚ → List String) (n : Nat)
    (st : JState) (ip : Nat × Paper) :
    ∃ t, (journalStep split true n st ip).doc.events =
        st.doc.events ++ Event.progress (ip.1 + 1) n ::
          Event.text (st.doc.pages + 1) 20 20 ("Paper #" ++ toString (ip.1 + 1))
            st.doc.font st.doc.fstyle 10 ⟨150, 150, 150⟩ "left" :: t ∧
      ∀ e ∈ t, noProg e := by
  obtain ⟨-, t, ht, hall⟩ :=
    processPaper_events split ip.1 ip.2 (st.doc.progress (ip.1 + 1) n)
  refine ⟨t, ?_, hall⟩
  show (processPaper split ip.1 ip.2 (st.doc.progress (ip.1 + 1) n)).doc.events = _
  rw [ht]
  show (st.doc.events ++ [Event.progress (ip.1 + 1) n]) ++ _ :: t = _
  simp [Doc.progress]

theorem journalStep_pages_mono (split : String → ℚ → List String) (onP : Bool)
    (n : Nat) (st : JState) (ip : Nat × Paper) :
    st.doc.pages ≤ (journalStep split onP n st ip).doc.pages :=
  le_trans (Nat.le_succ _) (journalStep_toc split onP n st ip).2.2

theorem emits_true_journalStep (split : String → ℚ → List String) (onP : Bool)
    (n : Nat) (st : JState) (ip : Nat × Paper) :
    Emits (fun _ => True) st.doc (journalStep split onP n st ip).doc := by
  unfold journalStep
  dsimp only
  have hpp : ∀ d : Doc, Emits (fun _ => True) d (processPaper split ip.1 ip.2 d).doc := by
    intro d
    obtain ⟨hp, t, ht, -⟩ := processPaper_events split ip.1 ip.2 d
    exact ⟨le_trans (Nat.le_succ _) hp, _ :: t, by simpa using ht, fun _ _ => trivial⟩
  refine Emits.trans ?_ (hpp _)
  split
  · exact ⟨le_rfl, [Event.progress (ip.1 + 1) n], rfl, fun _ _ => trivial⟩
  · exact Emits.refl _ _

theorem journal_fold_titles (split : String → ℚ → List String) (onP : Bool) (n : Nat) :
    ∀ (ps : List (Nat × Paper)) (st : JState),
      (ps.foldl (journalStep split onP n) st).toc.map TocEntry.title =
        st.toc.map TocEntry.title ++ ps.map (fun ip => ip.2.title) := by
  intro ps
  induction ps with
  | nil => intro st; simp
  | cons a ps ih =>
    intro st
    rw [List.foldl_cons, ih, (journalStep_toc split onP n st a).1]
    simp

theorem journal_fold_headerAlign (split : String → ℚ → List String) (onP : Bool) (n : Nat) :
    ∀ (ps : List (Nat × Paper)) (st : JState),
      st.toc.map TocEntry.page = st.headerPages.map Prod.fst →
      st.toc.map TocEntry.page = st.headerPages.map Prod.snd →
      (ps.foldl (journalStep split onP n) st).toc.map TocEntry.page =
          (ps.foldl (journalStep split onP n) st).headerPages.map Prod.fst ∧
        (ps.foldl (journalStep split onP n) st).toc.map TocEntry.page =
          (ps.foldl (journalStep split onP n) st).headerPages.map Prod.snd := by
  intro ps
  induction ps with
  | nil => intro st h1 h2; exact ⟨h1, h2⟩
  | cons a ps ih =>
    intro st h1 h2
    rw [List.foldl_cons]
    obtain ⟨he, hh, -⟩ := journalStep_toc split onP n st a
    refine ih _ ?_ ?_
    · rw [he, hh, List.map_append, List.map_append, h1]; rfl
    · rw [he, hh, List.map_append, List.map_append, h2]; rfl

theorem journal_fold_pages (split : String → ℚ → List String) (onP : Bool) (n : Nat) :
    ∀ (ps : List (Nat × Paper)) (st : JState),
      (st.toc.map TocEntry.page).Pairwise (· < ·) →
      (∀ p ∈ st.toc.map TocEntry.page, p ≤ st.doc.pages) →
      ((ps.foldl (journalStep split onP n) st).toc.map TocEntry.page).Pairwise (· < ·) ∧
        ∀ p ∈ (ps.foldl (journalStep split onP n) st).toc.map TocEntry.page,
          p ≤ (ps.foldl (journalStep split onP n) st).doc.pages := by
  intro ps
  induction ps with
  | nil => intro st h1 h2; exact ⟨h1, h2⟩
  | cons a ps ih =>
    intro st h1 h2
    rw [List.foldl_cons]
    obtain ⟨he, -, hpg⟩ := journalStep_toc split onP n st a
    refine ih _ ?_ ?_
    · rw [he]
      simp only [List.map_append, List.map_cons, List.map_nil]
      rw [List.pairwise_append]
      refine ⟨h1, List.pairwise_singleton _ _, ?_⟩
      intro x hx y hy
      simp only [List.mem_singleton] at hy
      subst hy
      exact Nat.lt_succ_of_le (h2 x hx)
    · rw [he]
      intro p hp
      simp only [List.map_append, List.map_cons, List.map_nil, List.mem_append,
        List.mem_singleton] at hp
      rcases hp with hp | hp
      · exact le_trans (h2 p hp) (le_trans (Nat.le_succ _) hpg)
      · subst hp; exact hpg

theorem journal_fold_progress_filterMap (split : String → ℚ → List String) (n : Nat) :
    ∀ (ps : List (Nat × Paper)) (st : JState),
      (ps.foldl (journalStep split true n) st).doc.events.filterMap progressOf =
        st.doc.events.filterMap progressOf ++ ps.map (fun ip => (ip.1 + 1, n)) := by
  intro ps
  induction ps with
  | nil => intro st; simp
  | cons a ps ih =>
    intro st
    rw [List.foldl_cons, ih]
    obtain ⟨t, ht, hall⟩ := journalStep_events split n st a
    rw [ht]
    rw [List.filterMap_append]
    have h1 : List.filterMap progressOf
        (Event.progress (a.1 + 1) n ::
          Event.text (st.doc.pages + 1) 20 20 ("Paper #" ++ toString (a.1 + 1))
            st.doc.font st.doc.fstyle 10 ⟨150, 150, 150⟩ "left" :: t) =
        [(a.1 + 1, n)] := by
      rw [List.filterMap_cons, List.filterMap_cons]
      have hnil : t.filterMap progressOf = [] :=
        List.filterMap_eq_nil_iff.2 fun e he => noProg_progressOf (hall e he)
      simp [progressOf, hnil]
    rw [h1]
    simp

theorem journal_fold_tag_decomp (split : String → ℚ → List String) (n : Nat) :
    ∀ (ps : List (Nat × Paper)) (st : JState), ∀ ip ∈ ps,
      ∃ pre post pg f fs,
        (ps.foldl (journalStep split true n) st).doc.events =
          pre ++ Event.progress (ip.1 + 1) n ::
            Event.text pg 20 20 ("Paper #" ++ toString (ip.1 + 1))
              f fs 10 ⟨150, 150, 150⟩ "left" :: post := by
  intro ps
  induction ps with
  | nil => intro st ip h; exact absurd h (List.not_mem_nil ip)
  | cons a ps ih =>
    intro st ip hip
    rcases List.mem_cons.1 hip with h | h
    · subst h
      rw [List.foldl_cons]
      obtain ⟨t, ht, -⟩ := journalStep_events split n st ip
      obtain ⟨-, t2, ht2, -⟩ :=
        emits_foldl JState.doc (journalStep split true n) (fun _ => True)
          (fun s a => emits_true_journalStep split true n s a) ps
          (journalStep split true n st ip)
      refine ⟨st.doc.events, t ++ t2, st.doc.pages + 1, st.doc.font, st.doc.fstyle, ?_⟩
      rw [ht2, ht]
      simp
    · rw [List.foldl_cons]
      exact ih (journalStep split true n st a) ip h

theorem emits_noProg_titlePageBlock (today : String) (n : Nat) (d : Doc) :
    Emits noProg d (titlePageBlock today n d).1 := by
  unfold titlePageBlock
  dsimp only
  refine Emits.trans ?_ (emits_hline _ _ _ _ _ _ rfl)
  refine Emits.trans ?_ (emits_setDrawColorGray _ _ _)
  refine Emits.trans ?_ (emits_setLineWidth _ _ _)
  refine Emits.trans ?_ (emits_text _ _ _ _ _ rfl)
  refine Emits.trans ?_ (emits_text _ _ _ _ _ rfl)
  refine Emits.trans ?_ (emits_setFont _ _ _ _)
  refine Emits.trans ?_ (emits_text _ _ _ _ _ rfl)
  refine Emits.trans ?_ (emits_setFont _ _ _ _)
  refine Emits.trans ?_ (emits_text _ _ _ _ _ rfl)
  refine Emits.trans ?_ (emits_text _ _ _ _ _ rfl)
  refine Emits.trans ?_ (emits_setFont _ _ _ _)
  refine Emits.trans ?_ (emits_text _ _ _ _ _ rfl)
  refine Emits.trans ?_ (emits_setFont _ _ _ _)
  refine Emits.trans ?_ (emits_text _ _ _ _ _ rfl)
  refine Emits.trans ?_ (emits_setTextColor _ _ _ _ _)
  refine Emits.trans ?_ (emits_setFontSize _ _ _)
  refine Emits.trans ?_ (emits_text _ _ _ _ _ rfl)
  refine Emits.trans ?_ (emits_setFont _ _ _ _)
  refine Emits.trans ?_ (emits_setTextColor _ _ _ _ _)
  refine Emits.trans ?_ (emits_setFontSize _ _ _)
  refine Emits.trans ?_ (emits_text _ _ _ _ _ rfl)
  refine Emits.trans ?_ (emits_setFont _ _ _ _)
  refine Emits.trans ?_ (emits_setTextColor _ _ _ _ _)
  exact emits_setFontSize _ _ _

theorem emits_noProg_tocEntryStep (st : BState) (ie : Nat × TocEntry) :
    Emits noProg st.doc (tocEntryStep st ie).doc := by
  unfold tocEntryStep
  dsimp only
  split
  · refine Emits.trans ?_ (emits_setFontSize _ _ _)
    refine Emits.trans ?_ (emits_setTextColor _ _ _ _ _)
    refine Emits.trans ?_ (emits_textWithLink _ _ _ _ _ _ rfl)
    refine Emits.trans ?_ (emits_setFontSize _ _ _)
    refine Emits.trans ?_ (emits_setTextColor _ _ _ _ _)
    refine Emits.trans ?_ (emits_textRightAligned _ _ _ _ _ rfl)
    refine Emits.trans ?_ (emits_setTextColorGray _ _ _)
    refine Emits.trans ?_ (emits_link _ _ _ _ _ _ _ rfl)
    refine Emits.trans ?_ (emits_text _ _ _ _ _ rfl)
    refine Emits.trans ?_ (emits_setTextColor _ _ _ _ _)
    split
    · exact emits_addPage _ _
    · exact Emits.refl _ _
  · refine Emits.trans ?_ (emits_textRightAligned _ _ _ _ _ rfl)
    refine Emits.trans ?_ (emits_setTextColorGray _ _ _)
    refine Emits.trans ?_ (emits_link _ _ _ _ _ _ _ rfl)
    refine Emits.trans ?_ (emits_text _ _ _ _ _ rfl)
    refine Emits.trans ?_ (emits_setTextColor _ _ _ _ _)
    split
    · exact emits_addPage _ _
    · exact Emits.refl _ _

theorem tocEntryStep_pagesInv (tocPage P : Nat) (st : BState) (ie : Nat × TocEntry)
    (h1 : st.doc.current = tocPage ∨ P < st.doc.current)
    (h2 : P ≤ st.doc.pages)
    (h3 : ∀ q ∈ st.drawnPages, q = tocPage ∨ P < q) :
    ((tocEntryStep st ie).doc.current = tocPage ∨ P < (tocEntryStep st ie).doc.current) ∧
      P ≤ (tocEntryStep st ie).doc.pages ∧
      ∀ q ∈ (tocEntryStep st ie).drawnPages, q = tocPage ∨ P < q := by
  unfold tocEntryStep
  dsimp only
  split <;>
    simp only [Doc.addPage, Doc.setTextColor, Doc.setTextColorGray, Doc.setFontSize,
      Doc.text, Doc.textRightAligned, Doc.textWithLink, Doc.link] <;>
    split <;>
    refine ⟨?_, ?_, ?_⟩
  all_goals first
    | (intro q hq
       rcases List.mem_append.1 hq with hq | hq
       · exact h3 q hq
       · simp only [List.mem_singleton] at hq
         subst hq
         first
           | exact Or.inr (Nat.lt_succ_of_le h2)
           | exact h1)
    | exact Or.inr (Nat.lt_succ_of_le h2)
    | exact le_trans h2 (Nat.le_succ _)
    | exact h1
    | exact h2

theorem backfill_fold_pagesInv (tocPage P : Nat) :
    ∀ (ps : List (Nat × TocEntry)) (st : BState),
      (st.doc.current = tocPage ∨ P < st.doc.current) →
      P ≤ st.doc.pages →
      (∀ q ∈ st.drawnPages, q = tocPage ∨ P < q) →
      ∀ q ∈ (ps.foldl tocEntryStep st).drawnPages, q = tocPage ∨ P < q := by
  intro ps
  induction ps with
  | nil => intro st h1 h2 h3; exact h3
  | cons a ps ih =>
    intro st h1 h2 h3
    rw [List.foldl_cons]
    obtain ⟨g1, g2, g3⟩ := tocEntryStep_pagesInv tocPage P st a h1 h2 h3
    exact ih _ g1 g2 g3

/-- A minimal concrete paper (no citation, no DOI, no analysis). -/
def plainPaper : Paper := ⟨"", "P", "A", "S", "U", [], 0, none, none, none, none⟩

/-- A minimal concrete paper carrying a DOI. -/
def doiPaper : Paper := ⟨"", "P", "A", "S", "U", [], 0, none, none, some "10.1/x", none⟩

/-- Membership in the event list survives any later emitting step. -/
theorem mem_of_emits {P : Event → Prop} {e : Event} {d d' : Doc}
    (hm : e ∈ d.events) (h : Emits P d d') : e ∈ d'.events := by
  obtain ⟨-, t, ht, -⟩ := h
  rw [ht]
  exact List.mem_append_left t hm

/-- C1.  For every list of papers given to the multi-paper journal export and
every paper in it, the page recorded in that paper's table-of-contents entry
equals the page on which the paper's section header is drawn: the list of
recorded start pages coincides with the ghost observations of the current
page at the `Paper #n` tag drawing call and at the title drawing call. -/
theorem C1_toc_page_matches_header_page (split : String → ℚ → List String)
    (onP : Bool) (today : String) (papers : List Paper) :
    (generateResearchPDF split onP today papers).toc.map TocEntry.page =
        (generateResearchPDF split onP today papers).headerPages.map Prod.fst ∧
      (generateResearchPDF split onP today papers).toc.map TocEntry.page =
        (generateResearchPDF split onP today papers).headerPages.map Prod.snd :=
  journal_fold_headerAlign split onP papers.length papers.enum
    ⟨journalInit today papers.length, 20, [], []⟩ rfl rfl

/-- C10.  The journal export records exactly one table-of-contents entry per
input paper, in input order, and the recorded start pages are strictly
increasing. -/
theorem C10_toc_entries_order (split : String → ℚ → List String)
    (onP : Bool) (today : String) (papers : List Paper) :
    (generateResearchPDF split onP today papers).toc.length = papers.length ∧
      (generateResearchPDF split onP today papers).toc.map TocEntry.title =
        papers.map Paper.title ∧
      ((generateResearchPDF split onP today papers).toc.map TocEntry.page).Pairwise
        (· < ·) := by
  have htitles :
      (generateResearchPDF split onP today papers).toc.map TocEntry.title =
        papers.map Paper.title := by
    have h := journal_fold_titles split onP papers.length papers.enum
      ⟨journalInit today papers.length, 20, [], []⟩
    have h2 : papers.enum.map (fun ip => ip.2.title) = papers.map Paper.title := by
      have := congrArg (List.map Paper.title) (List.enum_map_snd papers)
      rw [← this, List.map_map]
      rfl
    rw [← h2]
    simpa using h
  refine ⟨?_, htitles, ?_⟩
  · have := congrArg List.length htitles
    simpa using this
  · exact (journal_fold_pages split onP papers.length papers.enum
      ⟨journalInit today papers.length, 20, [], []⟩ (by simp) (by simp)).1

/-- Everything after the forward pass (backfill and save) emits only
non-progress events. -/
theorem emits_noProg_post (st : JState) (tocPage : Nat) (name : String) :
    Emits noProg st.doc ((journalBackfill st tocPage).doc.save name) := by
  refine Emits.trans ?_ (emits_save _ _ _ rfl)
  unfold journalBackfill
  dsimp only
  refine Emits.trans ?_
    (emits_foldl BState.doc _ _ (fun s a => emits_noProg_tocEntryStep s a) _ _)
  refine Emits.trans ?_ (emits_setFont _ _ _ _)
  refine Emits.trans ?_ (emits_setFontSize _ _ _)
  refine Emits.trans ?_ (emits_text _ _ _ _ _ rfl)
  refine Emits.trans ?_ (emits_setFont _ _ _ _)
  refine Emits.trans ?_ (emits_setTextColor _ _ _ _ _)
  refine Emits.trans ?_ (emits_setFontSize _ _ _)
  exact emits_setPage _ _ _

/-- C4 (amended).  With a progress callback supplied, the journal export
invokes it exactly once per paper, in order, with `current = i + 1` and
`total` the number of papers — but at the start of each paper's iteration,
before that paper's section is laid out: in the trace, each progress event is
immediately followed by that paper's `Paper #n` header event. -/
theorem C4_progress_callback_amended (split : String → ℚ → List String)
    (today : String) (papers : List Paper) :
    (generateResearchPDF split true today papers).doc.events.filterMap progressOf =
        (List.range papers.length).map (fun i => (i + 1, papers.length)) ∧
      ∀ i, i < papers.length → ∃ pre post pg f fs,
        (generateResearchPDF split true today papers).doc.events =
          pre ++ Event.progress (i + 1) papers.length ::
            Event.text pg 20 20 ("Paper #" ++ toString (i + 1))
              f fs 10 ⟨150, 150, 150⟩ "left" :: post := by
  have st0 : JState := ⟨journalInit today papers.length, 20, [], []⟩
  obtain ⟨-, tpost, htpost, hallpost⟩ :=
    emits_noProg_post (journalForward split true today papers)
      (journalInit today papers.length).pages "SIGGRAPH_2025_Comprehensive_Journal.pdf"
  have hR : (generateResearchPDF split true today papers).doc.events =
      (journalForward split true today papers).doc.events ++ tpost := htpost
  constructor
  · rw [hR, List.filterMap_append]
    have hpost0 : tpost.filterMap progressOf = [] :=
      List.filterMap_eq_nil_iff.2 fun e he => noProg_progressOf (hallpost e he)
    rw [hpost0, List.append_nil]
    have hfwd := journal_fold_progress_filterMap split papers.length papers.enum
      ⟨journalInit today papers.length, 20, [], []⟩
    have hinit : (journalInit today papers.length).events.filterMap progressOf = [] := by
      obtain ⟨-, t0, ht0, hall0⟩ := emits_noProg_titlePageBlock today papers.length initDoc
      have : (journalInit today papers.length).events =
          (titlePageBlock today papers.length initDoc).1.events := rfl
      rw [this, ht0]
      show ((initDoc.events ++ t0).filterMap progressOf) = []
      rw [List.filterMap_append]
      have h1 : initDoc.events.filterMap progressOf = [] := rfl
      have h2 : t0.filterMap progressOf = [] :=
        List.filterMap_eq_nil_iff.2 fun e he => noProg_progressOf (hall0 e he)
      rw [h1, h2]
      rfl
    show (journalForward split true today papers).doc.events.filterMap progressOf = _
    unfold journalForward
    rw [hfwd]
    have hinit2 : ((⟨journalInit today papers.length, 20, [], []⟩ :
        JState)).doc.events.filterMap progressOf = [] := hinit
    rw [hinit2, List.nil_append]
    have hfst : papers.enum.map (fun ip => (ip.1 + 1, papers.length)) =
        (List.range papers.length).map (fun i => (i + 1, papers.length)) := by
      rw [← List.enum_map_fst papers, List.map_map]
      rfl
    exact hfst
  · intro i hi
    have hmem : (i, papers.get ⟨i, hi⟩) ∈ papers.enum := by
      have hlen : i < papers.enum.length := by simpa using hi
      have := List.getElem_mem hlen
      rwa [List.getElem_enum] at this
    obtain ⟨pre, post, pg, f, fs, hdec⟩ :=
      journal_fold_tag_decomp split papers.length papers.enum
        ⟨journalInit today papers.length, 20, [], []⟩ (i, papers.get ⟨i, hi⟩) hmem
    refine ⟨pre, post ++ tpost, pg, f, fs, ?_⟩
    rw [hR]
    show (papers.enum.foldl (journalStep split true papers.length) _).doc.events ++ tpost = _
    rw [hdec]
    simp

/-- The concrete one-paper journal run used to test the progress callback. -/
def progressRun : JournalOut := generateResearchPDF cSplit true "2025-08-11" [plainPaper]

/-- C4 counterexample.  In the one-paper journal run with a progress callback,
the unique progress event sits at index 10 of the trace while the paper's
`Paper #1` section header sits at index 11: the callback fires *before* the
paper's section is laid out, refuting the claim that it is called after. -/
theorem C4_progress_after_layout_counterexample :
    progressRun.doc.events.findIdx Event.isProgress = 10 ∧
      progressRun.doc.events.findIdx
        (fun e => match e with
          | .text _ _ _ s _ _ _ _ _ => s == "Paper #1"
          | _ => false) = 11 ∧
      progressRun.doc.events.filterMap progressOf = [(1, 1)] ∧
      (10 : Nat) < 11 := by
  refine ⟨?_, ?_, ?_, by decide⟩ <;> with_unfolding_all rfl

/-- C4 witness: the amended theorem applied to the concrete one-paper run. -/
theorem C4_progress_callback_amended_witness :
    ((generateResearchPDF cSplit true "2025-08-11" [plainPaper]).doc.events.filterMap
        progressOf =
      (List.range [plainPaper].length).map (fun i => (i + 1, [plainPaper].length))) ∧
      (0 < [plainPaper].length ∧ ∃ pre post pg f fs,
        (generateResearchPDF cSplit true "2025-08-11" [plainPaper]).doc.events =
          pre ++ Event.progress (0 + 1) [plainPaper].length ::
            Event.text pg 20 20 ("Paper #" ++ toString (0 + 1))
              f fs 10 ⟨150, 150, 150⟩ "left" :: post) :=
  ⟨(C4_progress_callback_amended cSplit "2025-08-11" [plainPaper]).1,
    by decide,
    (C4_progress_callback_amended cSplit "2025-08-11" [plainPaper]).2 0 (by decide)⟩

/-- The concrete sixteen-paper journal run whose table of contents overflows
its reserved page during the backfill pass. -/
def overflowRun : JournalOut :=
  generateResearchPDF cSplit false "2025-08-11" (List.replicate 16 doiPaper)

set_option maxRecDepth 400000 in
/-- C8 counterexample.  In the sixteen-paper run the contents page is page 2
and the forward pass ends at page 18; the sixteenth entry overflows the
contents page, and the page break lands it on a freshly appended page 19 at
the very end of the document — not on page 3, the page immediately following
the contents page. -/
theorem C8_toc_overflow_counterexample :
    overflowRun.tocPageNumber = 2 ∧
      overflowRun.pagesBeforeToc = 18 ∧
      overflowRun.drawnPages = [2, 2, 2, 2, 2, 2, 2, 2, 2, 2, 2, 2, 2, 2, 2, 19] ∧
      overflowRun.doc.pages = 19 ∧
      ¬((19 : Nat) = 2 ∨ (19 : Nat) = 2 + 1) := by
  refine ⟨?_, ?_, ?_, ?_, by decide⟩ <;> with_unfolding_all rfl

/-- C8 (amended).  When a table-of-contents entry would overflow the contents
page, the backfill pass appends a new page at the end of the document and the
remaining entries continue there: every entry is drawn either on the reserved
contents page itself or on a page appended after the whole forward pass (page
index greater than the page count at the end of the forward pass), never on
the pages in between. -/
theorem C8_toc_overflow_amended (split : String → ℚ → List String) (onP : Bool)
    (today : String) (papers : List Paper) :
    ∀ q ∈ (generateResearchPDF split onP today papers).drawnPages,
      q = (generateResearchPDF split onP today papers).tocPageNumber ∨
        (generateResearchPDF split onP today papers).pagesBeforeToc < q := by
  intro q hq
  exact backfill_fold_pagesInv (journalInit today papers.length).pages
    (journalForward split onP today papers).doc.pages
    (journalForward split onP today papers).toc.enum _
    (Or.inl rfl) le_rfl (by simp) q hq

set_option maxRecDepth 400000 in
/-- C8 witness: the amended theorem applied to the sixteen-paper run at the
entry drawn on the appended page 19. -/
theorem C8_toc_overflow_amended_witness :
    (19 : Nat) ∈ overflowRun.drawnPages ∧
      ((19 : Nat) = overflowRun.tocPageNumber ∨ overflowRun.pagesBeforeToc < 19) := by
  have hmem : (19 : Nat) ∈ overflowRun.drawnPages := by
    have h : overflowRun.drawnPages = [2, 2, 2, 2, 2, 2, 2, 2, 2, 2, 2, 2, 2, 2, 2, 19] := by
      with_unfolding_all rfl
    rw [h]
    decide
  exact ⟨hmem,
    C8_toc_overflow_amended cSplit false "2025-08-11" (List.replicate 16 doiPaper) 19 hmem⟩

/-- C9.  Single-paper export of a paper with an empty tags array renders the
literal text `Tags: ` with nothing after it (the embedding is total, so the
export is defined — it cannot throw). -/
theorem C9_empty_tags (split : String → ℚ → List String) (paper : Paper)
    (h : paper.tags = []) :
    ∃ pg y, Event.text pg 20 y "Tags: " "helvetica" "normal" 9 ⟨100, 100, 100⟩ "left" ∈
      (generatePaperAnalysisPDF split paper).events := by
  refine ⟨(citationBlock split paper (paperHeaderSingle split paper)).1.current,
    (citationBlock split paper (paperHeaderSingle split paper)).2, ?_⟩
  have hbase :
      Event.text (citationBlock split paper (paperHeaderSingle split paper)).1.current 20
          (citationBlock split paper (paperHeaderSingle split paper)).2 "Tags: "
          "helvetica" "normal" 9 ⟨100, 100, 100⟩ "left" ∈
        (tagsBlock paper (citationBlock split paper (paperHeaderSingle split paper))).1.events := by
    unfold tagsBlock
    dsimp only [Doc.text]
    refine List.mem_append_right _ ?_
    rw [h]
    exact List.mem_singleton.2 rfl
  have h1 := mem_of_emits hbase (emits_noProg_summaryBlock split paper _)
  have h2 := mem_of_emits h1 (emits_noProg_deepDiveBlock split paper _)
  have h3 := mem_of_emits h2 (emits_noProg_linkBlock paper _)
  exact mem_of_emits h3 (emits_save _ _ _ rfl)

/-- C9 witness: the empty-tags export of the concrete paper contains the
`Tags: ` text event. -/
theorem C9_empty_tags_witness :
    plainPaper.tags = [] ∧
      ∃ pg y, Event.text pg 20 y "Tags: " "helvetica" "normal" 9 ⟨100, 100, 100⟩ "left" ∈
        (generatePaperAnalysisPDF cSplit plainPaper).events :=
  ⟨rfl, C9_empty_tags cSplit plainPaper rfl⟩

/-- C2 (amended).  The Markdown Flow Renderer on the empty string draws
nothing (the event list is unchanged), but the final cursor is the starting
cursor plus the blank-line gap 4 — the empty string splits into one blank
line — and, when the starting cursor already exceeds the page-break
threshold, a page is appended and the cursor becomes `margin + 4`. -/
theorem C2_empty_input_amended (split : String → ℚ → List String) (doc : Doc)
    (margin startY maxLineWidth pageHeight : ℚ) :
    (printMarkdownContent split doc "" margin startY maxLineWidth pageHeight).1.events =
        doc.events ∧
      (printMarkdownContent split doc "" margin startY maxLineWidth pageHeight).1.pages =
        (if startY > pageHeight - 20 then doc.pages + 1 else doc.pages) ∧
      (printMarkdownContent split doc "" margin startY maxLineWidth pageHeight).2 =
        (if startY > pageHeight - 20 then margin + 4 else startY + 4) := by
  have hsplit : ("".splitOn "\n") = [""] := by with_unfolding_all rfl
  have htrim : ("".trim) = "" := by with_unfolding_all rfl
  have htick : strStartsWith "" tripleTick = false := by with_unfolding_all rfl
  by_cases hbr : startY > pageHeight - 20 <;>
    refine ⟨?_, ?_, ?_⟩ <;>
    simp [printMarkdownContent, mdFold, hsplit, mdLine, htrim, htick, hbr,
      Doc.setFontSize, Doc.setTextColor, Doc.setFont, Doc.addPage]

/-- C2 counterexample.  On the empty string with starting cursor 50 the
renderer returns cursor 54, not the unchanged starting cursor 50 that the
claim demands (it does draw nothing). -/
theorem C2_empty_input_counterexample :
    (printMarkdownContent cSplit initDoc "" 20 50 170 280).2 = 54 ∧
      ((54 : ℚ) ≠ 50) ∧
      (printMarkdownContent cSplit initDoc "" 20 50 170 280).1.events = [] := by
  refine ⟨by with_unfolding_all rfl, by norm_num, by with_unfolding_all rfl⟩

/-- C5.  Whenever a citation box is drawn (the paper has a truthy citation
string or is verified), the single rectangle drawn by the citation block has
width 170 and height `citationBoxHeight` = 16 + 4 × (number of wrapped
citation lines) + 10 exactly when a truthy verified source URL exists;
the height is at least 16 + 4 once there is at least one wrapped line, and it
is monotone in the number of wrapped lines.  (The block is the code shared
verbatim by the single-paper export and the journal export.) -/
theorem C5_citation_box_height (split : String → ℚ → List String) (paper : Paper)
    (s : Doc × ℚ) :
    ((jsTruthy paper.citation || isVerifiedB paper) = true →
      ∃ y2, (citationBlock split paper s).1.events.filterMap rectOf =
        s.1.events.filterMap rectOf ++ [(20, y2, 170,
          citationBoxHeight (split (jsOr paper.citation defaultCitation) 160).length
            (hasSourceLinkB paper))]) ∧
      (∀ (n : Nat) (b : Bool), 1 ≤ n → 16 + 4 ≤ citationBoxHeight n b) ∧
      (∀ (n m : Nat) (b : Bool), n ≤ m → citationBoxHeight n b ≤ citationBoxHeight m b) := by
  refine ⟨?_, ?_, ?_⟩
  · intro h
    unfold citationBlock
    rw [h, if_pos rfl]
    unfold checkPageBreak
    dsimp only
    by_cases hb : 280 ≤ s.2 +
        (citationBoxHeight (split (jsOr paper.citation defaultCitation) 160).length
          (hasSourceLinkB paper) + 5)
    · refine ⟨20, ?_⟩
      rw [if_pos hb]
      split <;> split <;>
        simp [Doc.text, Doc.rect, Doc.textLines, Doc.textWithLink, Doc.setFont,
          Doc.setFontSize, Doc.setTextColor, Doc.setTextColorGray, Doc.setDrawColorGray,
          Doc.setFillColor, Doc.addPage, List.filterMap_append, rectOf]
    · refine ⟨s.2, ?_⟩
      rw [if_neg hb]
      split <;> split <;>
        simp [Doc.text, Doc.rect, Doc.textLines, Doc.textWithLink, Doc.setFont,
          Doc.setFontSize, Doc.setTextColor, Doc.setTextColorGray, Doc.setDrawColorGray,
          Doc.setFillColor, Doc.addPage, List.filterMap_append, rectOf]
  · intro n b hn
    unfold citationBoxHeight
    have hcast : (1 : ℚ) ≤ (n : ℚ) := by exact_mod_cast hn
    split <;> linarith
  · intro n m b hnm
    unfold citationBoxHeight
    have hcast : (n : ℚ) ≤ (m : ℚ) := by exact_mod_cast hnm
    split <;> linarith

/-- A concrete paper carrying a one-line citation. -/
def citedPaper : Paper := ⟨"", "T", "A", "S", "U", [], 0, none, some "C", none, none⟩

/-- C5 witness: the citation-box theorem applied to a concrete cited paper
and to concrete line counts. -/
theorem C5_citation_box_height_witness :
    ((jsTruthy citedPaper.citation || isVerifiedB citedPaper) = true ∧
      ∃ y2, (citationBlock cSplit citedPaper (initDoc, 20)).1.events.filterMap rectOf =
        (initDoc : Doc).events.filterMap rectOf ++ [(20, y2, 170,
          citationBoxHeight (cSplit (jsOr citedPaper.citation defaultCitation) 160).length
            (hasSourceLinkB citedPaper))]) ∧
      (16 + 4 : ℚ) ≤ citationBoxHeight 1 true ∧
      citationBoxHeight 1 false ≤ citationBoxHeight 2 false := by
  refine ⟨⟨by with_unfolding_all rfl, ?_⟩, ?_, ?_⟩
  · exact (C5_citation_box_height cSplit citedPaper (initDoc, 20)).1
      (by with_unfolding_all rfl)
  · exact (C5_citation_box_height cSplit citedPaper (initDoc, 20)).2.1 1 true le_rfl
  · exact (C5_citation_box_height cSplit citedPaper (initDoc, 20)).2.2 1 2 false
      (by decide)

/-- C6.  In the table-of-contents entry text, a title longer than 70
characters appears as its first 70 characters followed by an ellipsis, and a
title of 70 or fewer characters appears unmodified. -/
theorem C6_toc_title_truncation (i : Nat) (title : String) :
    (title.length > 70 →
      tocTitleText i title = toString (i + 1) ++ ". " ++ substrPrefix title 70 ++ "...") ∧
      (title.length ≤ 70 →
        tocTitleText i title = toString (i + 1) ++ ". " ++ title) := by
  constructor
  · intro h
    unfold tocTitleText
    rw [if_pos h]
  · intro h
    unfold tocTitleText
    rw [if_neg (by omega)]
    have hsub : substrPrefix title 70 = title := by
      unfold substrPrefix
      have hlen : title.data.length ≤ 70 := h
      rw [List.take_of_length_le hlen]
    rw [hsub, String.append_empty]

/-- A concrete 71-character title. -/
def longTitle : String := String.mk (List.replicate 71 'a')

/-- C6 witness: the truncation theorem applied to a 71-character title and to
a short title. -/
theorem C6_toc_title_truncation_witness :
    (longTitle.length > 70 ∧
      tocTitleText 0 longTitle = toString (0 + 1) ++ ". " ++ substrPrefix longTitle 70 ++ "...") ∧
      ("Short".length ≤ 70 ∧
        tocTitleText 1 "Short" = toString (1 + 1) ++ ". " ++ "Short") :=
  ⟨⟨by decide, (C6_toc_title_truncation 0 longTitle).1 (by decide)⟩,
    ⟨by decide, (C6_toc_title_truncation 1 "Short").2 (by decide)⟩⟩

/-- Specification of the events produced by the body/header inner loop when
no page break intervenes: one text event per wrapped line, at `x = m`,
stepping the baseline by `lh`. -/
def bodyEvents (page : Nat) (font fstyle : String) (size : ℚ) (color : Color)
    (m lh : ℚ) : ℚ → List String → List Event
  | _, [] => []
  | y, l :: ls =>
    Event.text page m y l font fstyle size color "left" ::
      bodyEvents page font fstyle size color m lh (y + lh) ls

theorem drawBody_noBreak (m ph lh : ℚ) (hlh : 0 < lh) :
    ∀ (ls : List String) (d : Doc) (y : ℚ),
      y + lh * ls.length ≤ ph - 20 + lh →
      ls.foldl (drawBodyLine m ph lh) (d, y) =
        ({ d with events := d.events ++
            bodyEvents d.current d.font d.fstyle d.size d.textColor m lh y ls },
          y + lh * ls.length) := by
  intro ls
  induction ls with
  | nil =>
    intro d y hle
    simp [bodyEvents]
  | cons l ls ih =>
    intro d y hle
    have hlen : ((l :: ls).length : ℚ) = (ls.length : ℚ) + 1 := by
      push_cast [List.length_cons]
      ring
    have hnn : (0 : ℚ) ≤ lh * ls.length := by positivity
    have hy : ¬ y > ph - 20 := by
      push_neg
      nlinarith [hle, hlen]
    rw [List.foldl_cons]
    have hstep : drawBodyLine m ph lh (d, y) l = (d.text l m y, y + lh) := by
      unfold drawBodyLine
      dsimp only
      rw [if_neg hy]
    rw [hstep, ih (d.text l m y) (y + lh) (by nlinarith [hle, hlen])]
    unfold Doc.text
    refine Prod.ext ?_ ?_
    · show ({ d with events := _ } : Doc) = { d with events := _ }
      simp only [bodyEvents, List.append_assoc, List.singleton_append]
    · show (y + lh) + lh * ls.length = y + lh * (l :: ls).length
      rw [hlen]
      ring

theorem strStartsWith_hh {s : String} (h : strStartsWith s "##" = true) :
    ∃ rest, s.data = '#' :: '#' :: rest := by
  unfold strStartsWith at h
  have e : ("##" : String).data = ['#', '#'] := rfl
  rw [e] at h
  cases hs : s.data with
  | nil => rw [hs] at h; simp [List.isPrefixOf] at h
  | cons c rest =>
    rw [hs] at h
    cases rest with
    | nil => simp [List.isPrefixOf] at h
    | cons c2 rest2 =>
      simp [List.isPrefixOf] at h
      exact ⟨rest2, by rw [← h.1, ← h.2]⟩

theorem startsHH_not_tick {s : String} (h : strStartsWith s "##" = true) :
    strStartsWith s tripleTick = false := by
  obtain ⟨rest, hs⟩ := strStartsWith_hh h
  unfold strStartsWith
  rw [show tripleTick.data = ['\x60', '\x60', '\x60'] from rfl, hs]
  simp [List.isPrefixOf]

theorem startsHH_ne_empty {s : String} (h : strStartsWith s "##" = true) : ¬ s = "" := by
  obtain ⟨rest, hs⟩ := strStartsWith_hh h
  intro he
  rw [he] at hs
  simp at hs

/-- C3 (amended).  Outside a code block, a line whose trimmed content starts
with at least two `#` characters is rendered as a header: up to six leading
markers and the following whitespace are stripped, the inline-markdown strip
is applied, and — when no page break intervenes — each wrapped physical line
is drawn in bold helvetica at size 13 in the header color, advancing the
cursor by the header line height 7 after an initial gap of 4; size and color
then revert to body defaults. -/
theorem C3_header_line_amended (split : String → ℚ → List String)
    (m w ph y : ℚ) (d : Doc) (line : String)
    (h1 : strStartsWith line.trim "##" = true)
    (h2 : ¬ y > ph - 20)
    (h3 : y + 4 + 7 * ((split (stripInline (stripHeaderMarker line.trim)) w).length : ℚ) ≤
      ph - 20 + 7) :
    mdLine split m w ph (d, y, false) line =
      ({ d with
          font := "helvetica"
          fstyle := "bold"
          size := 11
          textColor := ⟨20, 20, 20⟩
          events := d.events ++ bodyEvents d.current "helvetica" "bold" 13 ⟨0, 51, 102⟩ m 7
            (y + 4) (split (stripInline (stripHeaderMarker line.trim)) w) },
        y + 4 + 7 * ((split (stripInline (stripHeaderMarker line.trim)) w).length : ℚ),
        false) := by
  have htick := startsHH_not_tick h1
  have hne := startsHH_ne_empty h1
  unfold mdLine
  dsimp only
  simp only [if_neg h2, htick, Bool.false_eq_true, if_false, h1, if_true, eq_self_iff_true,
    if_neg hne]
  rw [drawBody_noBreak m ph 7 (by norm_num) _ _ _ (by linarith)]
  refine Prod.ext rfl (Prod.ext ?_ rfl)
  show (y + 4) + 7 * _ = _
  push_cast
  ring

/-- C3 counterexample.  The line `# Hi` — whose trimmed content starts with a
single `#` header marker — is rendered by the Markdown Flow Renderer in the
plain body style (helvetica normal, size 11, body color), with the marker
*not* stripped, and the cursor advances by the body line height 6, not the
header treatment the claim requires for one to six `#` characters: the code
only header-styles lines starting with `##`. -/
theorem C3_single_hash_counterexample :
    strStartsWith ("# Hi".trim) "#" = true ∧
      strStartsWith ("# Hi".trim) "##" = false ∧
      (printMarkdownContent cSplit initDoc "# Hi" 20 50 170 280).1.events =
        [Event.text 1 20 50 "# Hi" "helvetica" "normal" 11 ⟨20, 20, 20⟩ "left"] ∧
      (printMarkdownContent cSplit initDoc "# Hi" 20 50 170 280).2 = 50 + 6 := by
  refine ⟨?_, ?_, ?_, ?_⟩ <;> with_unfolding_all rfl

/-- C3 witness: the amended header theorem applied to the concrete line
`## Hi` with the no-wrap split. -/
theorem C3_header_line_amended_witness :
    strStartsWith ("## Hi".trim) "##" = true ∧
      mdLine cSplit 20 170 280 (initDoc, 50, false) "## Hi" =
        ({ initDoc with
            font := "helvetica"
            fstyle := "bold"
            size := 11
            textColor := ⟨20, 20, 20⟩
            events := initDoc.events ++ bodyEvents initDoc.current "helvetica" "bold" 13
              ⟨0, 51, 102⟩ 20 7 (50 + 4)
              (cSplit (stripInline (stripHeaderMarker ("## Hi".trim))) 170) },
          50 + 4 + 7 * ((cSplit (stripInline (stripHeaderMarker ("## Hi".trim))) 170).length : ℚ),
          false) :=
  ⟨by with_unfolding_all rfl,
    C3_header_line_amended cSplit 20 170 280 50 initDoc "## Hi"
      (by with_unfolding_all rfl)
      (by norm_num)
      (by
        have h : ((cSplit (stripInline (stripHeaderMarker ("## Hi".trim))) 170).length : ℚ) = 1 := by
          with_unfolding_all rfl
        rw [h]
        norm_num)⟩

theorem mdLine_inCode (split : String → ℚ → List String) (m w ph : ℚ)
    (st : Doc × ℚ × Bool) (line : String) :
    (mdLine split m w ph st line).2.2 = Bool.xor st.2.2 (isCodeToggle line) := by
  unfold mdLine
  dsimp only
  by_cases h : strStartsWith line.trim tripleTick = true
  · rw [show isCodeToggle line = true from h, Bool.xor_true]
    simp only [if_pos h]
  · have hf : isCodeToggle line = false := by
      cases hb : strStartsWith line.trim tripleTick
      · exact hb
      · exact absurd hb h
    rw [show isCodeToggle line = false from hf, Bool.xor_false]
    simp only [if_neg h]
    split
    · rfl
    · split
      · rfl
      · rfl

theorem parity_succ (c : Nat) : ((c + 1) % 2 == 1) = !((c % 2) == 1) := by
  rcases Nat.mod_two_eq_zero_or_one c with h | h <;> simp [Nat.add_mod, h]

theorem mdFold_inCode (split : String → ℚ → List String) (m w ph : ℚ) :
    ∀ (lines : List String) (st : Doc × ℚ × Bool),
      (mdFold split m w ph st lines).2.2 =
        Bool.xor st.2.2 ((lines.countP (fun l => isCodeToggle l)) % 2 == 1) := by
  intro lines
  induction lines with
  | nil => intro st; simp [mdFold]
  | cons l ls ih =>
    intro st
    unfold mdFold at ih ⊢
    rw [List.foldl_cons, ih, mdLine_inCode, List.countP_cons]
    cases hb : isCodeToggle l
    · simp [hb]
    · simp only [hb, Bool.xor_true, eq_self_iff_true, if_true, parity_succ]
      cases st.2.2 <;> cases ((ls.countP (fun l => isCodeToggle l)) % 2 == 1) <;> rfl

theorem drawBodyLine_font (m ph lh : ℚ) (s : Doc × ℚ) (l : String) :
    (drawBodyLine m ph lh s l).1.font = s.1.font := by
  unfold drawBodyLine
  dsimp only
  split <;> rfl

theorem emits_notCourier_bodyFold (m ph lh : ℚ) :
    ∀ (ls : List String) (s : Doc × ℚ), s.1.font = "helvetica" →
      Emits (fun e => e.isCourierText = false) s.1 (ls.foldl (drawBodyLine m ph lh) s).1 := by
  intro ls
  induction ls with
  | nil => intro s h; exact Emits.refl _ _
  | cons l ls ih =>
    intro s h
    rw [List.foldl_cons]
    refine Emits.trans ?_ (ih (drawBodyLine m ph lh s l) (by rw [drawBodyLine_font]; exact h))
    unfold drawBodyLine
    dsimp only
    refine Emits.trans ?_ (emits_text _ _ _ _ _ ?_)
    · split
      · exact emits_addPage _ _
      · exact Emits.refl _ _
    · show ((if s.2 > ph - 20 then (s.1.addPage, m) else s).1.font == "courier") = false
      have hf : (if s.2 > ph - 20 then (s.1.addPage, m) else s).1.font = s.1.font := by
        split <;> rfl
      rw [hf, h]
      decide

theorem drawCodeLine_font (m w ph : ℚ) (s : Doc × ℚ) (l : String) :
    (drawCodeLine m w ph s l).1.font = s.1.font ∧
      (drawCodeLine m w ph s l).1.size = s.1.size := by
  unfold drawCodeLine
  dsimp only
  split <;> exact ⟨rfl, rfl⟩

theorem emits_code_codeFold (m w ph : ℚ) :
    ∀ (ls : List String) (s : Doc × ℚ), s.1.font = "courier" → s.1.size = 9 →
      Emits codeStyled s.1 (ls.foldl (drawCodeLine m w ph) s).1 := by
  intro ls
  induction ls with
  | nil => intro s hf hs; exact Emits.refl _ _
  | cons l ls ih =>
    intro s hf hs
    rw [List.foldl_cons]
    refine Emits.trans ?_ (ih (drawCodeLine m w ph s l)
      (by rw [(drawCodeLine_font m w ph s l).1]; exact hf)
      (by rw [(drawCodeLine_font m w ph s l).2]; exact hs))
    unfold drawCodeLine
    dsimp only
    have hpre : (if s.2 > ph - 20 then (s.1.addPage, m) else s).1.font = s.1.font ∧
        (if s.2 > ph - 20 then (s.1.addPage, m) else s).1.size = s.1.size := by
      split <;> exact ⟨rfl, rfl⟩
    refine Emits.trans ?_ (emits_text _ _ _ _ _ ?_)
    · refine Emits.trans ?_ (emits_rect _ _ _ _ _ _ trivial)
      refine Emits.trans ?_ (emits_setFillColor _ _ _ _ _)
      split
      · exact emits_addPage _ _
      · exact Emits.refl _ _
    · show _ = "courier" ∧ _ = (9 : ℚ)
      refine ⟨?_, ?_⟩
      · show ((if s.2 > ph - 20 then (s.1.addPage, m) else s).1.setFillColor 245 247 250).font = _
        show (if s.2 > ph - 20 then (s.1.addPage, m) else s).1.font = _
        rw [hpre.1, hf]
      · show (if s.2 > ph - 20 then (s.1.addPage, m) else s).1.size = _
        rw [hpre.2, hs]

theorem mdLine_noCode (split : String → ℚ → List String) (m w ph : ℚ)
    (st : Doc × ℚ × Bool) (line : String)
    (hc : st.2.2 = false) (ht : isCodeToggle line = false) :
    (mdLine split m w ph st line).2.2 = false ∧
      Emits (fun e => e.isCourierText = false) st.1 (mdLine split m w ph st line).1 := by
  constructor
  · rw [mdLine_inCode, hc, ht]
    rfl
  · have ht' : strStartsWith line.trim tripleTick = false := ht
    have hpre : Emits (fun e => e.isCourierText = false) st.1
        (if st.2.1 > ph - 20 then st.1.addPage else st.1) := by
      split
      · exact emits_addPage _ _
      · exact Emits.refl _ _
    unfold mdLine
    dsimp only
    rw [ht', hc]
    simp only [Bool.false_eq_true, if_false]
    have hbase : Emits (fun e => e.isCourierText = false) st.1
        ((((if st.2.1 > ph - 20 then st.1.addPage else st.1).setFont
          "helvetica" "normal").setFontSize 11).setTextColor 20 20 20) := by
      refine Emits.trans ?_ (emits_setTextColor _ _ _ _ _)
      refine Emits.trans ?_ (emits_setFontSize _ _ _)
      refine Emits.trans ?_ (emits_setFont _ _ _ _)
      exact hpre
    split
    · exact hbase
    · have hsty : ∀ d0 : Doc, Emits (fun e => e.isCourierText = false) d0
          (if strStartsWith line.trim "##" = true then
            ((d0.setFont "helvetica" "bold").setFontSize 13).setTextColor 0 51 102
          else if (strStartsWith line.trim "**" || startsNumberedList line.trim) = true
            then d0.setFont "helvetica" "bold" else d0) := by
        intro d0
        split
        · refine Emits.trans ?_ (emits_setTextColor _ _ _ _ _)
          refine Emits.trans ?_ (emits_setFontSize _ _ _)
          exact emits_setFont _ _ _ _
        · split
          · exact emits_setFont _ _ _ _
          · exact Emits.refl _ _
      have hstyfont : ∀ d0 : Doc, d0.font = "helvetica" →
          (if strStartsWith line.trim "##" = true then
            ((d0.setFont "helvetica" "bold").setFontSize 13).setTextColor 0 51 102
          else if (strStartsWith line.trim "**" || startsNumberedList line.trim) = true
            then d0.setFont "helvetica" "bold" else d0).font = "helvetica" := by
        intro d0 h0
        split
        · rfl
        · split
          · rfl
          · exact h0
      have hrev : ∀ s2 : Doc × ℚ, Emits (fun e => e.isCourierText = false) s2.1
          (if strStartsWith line.trim "##" = true then
            (s2.1.setFontSize 11).setTextColor 20 20 20 else s2.1) := by
        intro s2
        split
        · exact Emits.trans (emits_setFontSize _ _ _) (emits_setTextColor _ _ _ _ _)
        · exact Emits.refl _ _
      have hfold : ∀ (lh : ℚ) (d0 : Doc) (y0 : ℚ) (ls : List String),
          d0.font = "helvetica" →
          Emits (fun e => e.isCourierText = false) d0
            (ls.foldl (drawBodyLine m ph lh) (d0, y0)).1 :=
        fun lh d0 y0 ls h0 => emits_notCourier_bodyFold m ph lh ls (d0, y0) h0
      refine Emits.trans ?_ (hrev _)
      exact Emits.trans (Emits.trans hbase (hsty _)) (hfold _ _ _ _ (hstyfont _ rfl))

theorem mdLine_code (split : String → ℚ → List String) (m w ph : ℚ)
    (st : Doc × ℚ × Bool) (line : String)
    (hc : st.2.2 = true) (ht : isCodeToggle line = false) :
    (mdLine split m w ph st line).2.2 = true ∧
      Emits codeStyled st.1 (mdLine split m w ph st line).1 := by
  constructor
  · rw [mdLine_inCode, hc, ht]
    rfl
  · have ht' : strStartsWith line.trim tripleTick = false := ht
    unfold mdLine
    dsimp only
    rw [ht', hc]
    simp only [Bool.false_eq_true, if_false, eq_self_iff_true, if_true]
    refine Emits.trans ?_ (emits_code_codeFold m w ph _ _ rfl rfl)
    refine Emits.trans ?_ (emits_setTextColor _ _ _ _ _)
    refine Emits.trans ?_ (emits_setFontSize _ _ _)
    refine Emits.trans ?_ (emits_setFont _ _ _ _)
    split
    · exact emits_addPage _ _
    · exact Emits.refl _ _

theorem countP_cons_zero {p : String → Bool} {l : String} {ls : List String}
    (h : (l :: ls).countP p = 0) : p l = false ∧ ls.countP p = 0 := by
  rw [List.countP_cons] at h
  cases hb : p l
  · rw [hb] at h
    simp only [Bool.false_eq_true, if_false, Nat.add_zero] at h
    exact ⟨rfl, h⟩
  · rw [hb] at h
    simp only [eq_self_iff_true, if_true] at h
    omega

theorem mdFold_noCode (split : String → ℚ → List String) (m w ph : ℚ) :
    ∀ (lines : List String) (st : Doc × ℚ × Bool),
      st.2.2 = false → lines.countP (fun l => isCodeToggle l) = 0 →
      (mdFold split m w ph st lines).2.2 = false ∧
        Emits (fun e => e.isCourierText = false) st.1 (mdFold split m w ph st lines).1 := by
  intro lines
  induction lines with
  | nil => intro st h0 hcnt; exact ⟨h0, Emits.refl _ _⟩
  | cons l ls ih =>
    intro st h0 hcnt
    obtain ⟨hl, hls⟩ := countP_cons_zero hcnt
    obtain ⟨g0, gem⟩ := mdLine_noCode split m w ph st l h0 hl
    unfold mdFold at ih ⊢
    rw [List.foldl_cons]
    obtain ⟨f0, fem⟩ := ih (mdLine split m w ph st l) g0 hls
    exact ⟨f0, Emits.trans gem fem⟩

theorem mdFold_code (split : String → ℚ → List String) (m w ph : ℚ) :
    ∀ (lines : List String) (st : Doc × ℚ × Bool),
      st.2.2 = true → lines.countP (fun l => isCodeToggle l) = 0 →
      Emits codeStyled st.1 (mdFold split m w ph st lines).1 := by
  intro lines
  induction lines with
  | nil => intro st h0 hcnt; exact Emits.refl _ _
  | cons l ls ih =>
    intro st h0 hcnt
    obtain ⟨hl, hls⟩ := countP_cons_zero hcnt
    obtain ⟨g0, gem⟩ := mdLine_code split m w ph st l h0 hl
    unfold mdFold at ih ⊢
    rw [List.foldl_cons]
    exact Emits.trans gem (ih (mdLine split m w ph st l) g0 hls)

/-- C7.  The renderer's code-block mode at a given line equals the parity of
the triple-backtick toggle lines before it; an input with no toggle lines
never draws in the courier code font; and after a single unterminated
toggle marker all remaining lines emit only code-styled output (courier at
size 9 over background band rectangles). -/
theorem C7_code_block_parity (split : String → ℚ → List String) (m w ph y : ℚ)
    (d : Doc) (lines : List String) :
    (∀ k : Nat, (mdFold split m w ph (d, y, false) (lines.take k)).2.2 =
        (((lines.take k).countP (fun l => isCodeToggle l)) % 2 == 1)) ∧
      (lines.countP (fun l => isCodeToggle l) = 0 →
        ∃ t, (mdFold split m w ph (d, y, false) lines).1.events = d.events ++ t ∧
          ∀ e ∈ t, e.isCourierText = false) ∧
      (∀ pre marker post, lines = pre ++ marker :: post →
        isCodeToggle marker = true →
        pre.countP (fun l => isCodeToggle l) = 0 →
        post.countP (fun l => isCodeToggle l) = 0 →
        ∃ t, (mdFold split m w ph (d, y, false) lines).1.events =
            (mdFold split m w ph (d, y, false) (pre ++ [marker])).1.events ++ t ∧
          ∀ e ∈ t, codeStyled e) := by
  refine ⟨?_, ?_, ?_⟩
  · intro k
    rw [mdFold_inCode]
    cases (((lines.take k).countP (fun l => isCodeToggle l)) % 2 == 1) <;> rfl
  · intro h
    obtain ⟨-, -, t, ht, hall⟩ := mdFold_noCode split m w ph lines (d, y, false) rfl h
    exact ⟨t, ht, hall⟩
  · intro pre marker post hsplit hmk hpre hpost
    subst hsplit
    have hassoc : pre ++ marker :: post = (pre ++ [marker]) ++ post := by simp
    have happ : mdFold split m w ph (d, y, false) ((pre ++ [marker]) ++ post) =
        mdFold split m w ph (mdFold split m w ph (d, y, false) (pre ++ [marker])) post := by
      unfold mdFold
      rw [List.foldl_append]
    rw [hassoc, happ]
    have hstate : (mdFold split m w ph (d, y, false) (pre ++ [marker])).2.2 = true := by
      rw [mdFold_inCode]
      rw [List.countP_append, hpre, List.countP_cons]
      simp [hmk]
    obtain ⟨-, t, ht, hall⟩ :=
      mdFold_code split m w ph post (mdFold split m w ph (d, y, false) (pre ++ [marker]))
        hstate hpost
    exact ⟨t, ht, hall⟩

/-- C7 witness: the parity/no-code/unterminated properties applied to the
concrete inputs `["a", "x"]` and `["\x60\x60\x60", "z"]`. -/
theorem C7_code_block_parity_witness :
    ((mdFold cSplit 20 170 280 (initDoc, 50, false) (["a", "x"].take 1)).2.2 =
        ((["a", "x"].take 1).countP (fun l => isCodeToggle l) % 2 == 1)) ∧
      (["a", "x"].countP (fun l => isCodeToggle l) = 0 ∧
        ∃ t, (mdFold cSplit 20 170 280 (initDoc, 50, false) ["a", "x"]).1.events =
          initDoc.events ++ t ∧ ∀ e ∈ t, e.isCourierText = false) ∧
      (isCodeToggle tripleTick = true ∧
        ∃ t, (mdFold cSplit 20 170 280 (initDoc, 50, false)
              ([] ++ tripleTick :: ["z"])).1.events =
            (mdFold cSplit 20 170 280 (initDoc, 50, false) ([] ++ [tripleTick])).1.events ++ t ∧
          ∀ e ∈ t, codeStyled e) :=
  ⟨(C7_code_block_parity cSplit 20 170 280 50 initDoc ["a", "x"]).1 1,
    ⟨by with_unfolding_all rfl,
      (C7_code_block_parity cSplit 20 170 280 50 initDoc ["a", "x"]).2.1
        (by with_unfolding_all rfl)⟩,
    ⟨by with_unfolding_all rfl,
      (C7_code_block_parity cSplit 20 170 280 50 initDoc
        ([] ++ tripleTick :: ["z"])).2.2 [] tripleTick ["z"] rfl
        (by with_unfolding_all rfl) rfl (by with_unfolding_all rfl)⟩⟩
